import Mathlib

/-!
# gei-migration-helper: the GitHub client façade (`internal/github/github.go`)

A shallow embedding of the façade.  The package-level variables `clientV3`,
`clientV4` and `accessToken` become fields of an explicit `World`; every call
that leaves the package (transport construction, REST and GraphQL calls) is
appended to `World.calls`, and the behaviour of the outside world is an `Env`
whose answers may depend on the whole history of calls made so far.

Conventions of the embedding:
* a Go pointer that may be nil is an `Option`; dereferencing `none` panics;
* a Go slice is a `List`, the nil slice being `[]`;
* a Go `error` is an `Option Error`, `none` being `nil`;
* Go `int` values are only copied and compared, so they are `Int`;
* `for { ... }` loops take a fuel argument and yield `Outcome.outOfFuel`
  when it is used up;
* `ctx` is always `context.Background()` and `time.Sleep` changes no state, so
  neither appears.
-/

namespace Github

/-! ## Data model -/

/-- Type `github.AdvancedSecurity`. -/
structure AdvancedSecurity where
  Status : Option String
deriving DecidableEq, Repr

/-- Type `github.SecretScanning`. -/
structure SecretScanning where
  Status : Option String
deriving DecidableEq, Repr

/-- Type `github.SecretScanningPushProtection`. -/
structure SecretScanningPushProtection where
  Status : Option String
deriving DecidableEq, Repr

/-- Type `github.SecurityAndAnalysis`; a nil field is left out of the request body. -/
structure SecurityAndAnalysis where
  AdvancedSecurity : Option AdvancedSecurity := none
  SecretScanning : Option SecretScanning := none
  SecretScanningPushProtection : Option SecretScanningPushProtection := none
deriving DecidableEq, Repr

/-- Type `github.Repository`, with the fields the façade reads or writes. -/
structure Repository where
  Name : Option String := none
  Visibility : Option String := none
  Archived : Option Bool := none
  SecurityAndAnalysis : Option SecurityAndAnalysis := none
deriving DecidableEq, Repr

/-- Type `github.Organization`, with the fields written by `ChangeGHASOrgSettings`. -/
structure Organization where
  AdvancedSecurityEnabledForNewRepos : Option Bool := none
  SecretScanningPushProtectionEnabledForNewRepos : Option Bool := none
  SecretScanningEnabledForNewRepos : Option Bool := none
deriving DecidableEq, Repr

/-- Type `github.Workflow`. -/
structure Workflow where
  ID : Option Int := none
  Name : Option String := none
  State : Option String := none
deriving DecidableEq, Repr

/-- Type `github.ScanningAnalysis`; the façade only passes it on. -/
structure ScanningAnalysis where
  ID : Option Int := none
deriving DecidableEq, Repr

/-- Type `github.Issue`; the façade only passes it on. -/
structure Issue where
  Number : Option Int := none
  Title : Option String := none
  Body : Option String := none
deriving DecidableEq, Repr

/-- Type `github.ListOptions`. -/
structure ListOptions where
  Page : Int := 0
  PerPage : Int := 0
deriving DecidableEq, Repr

/-- Type `github.RepositoryListByOrgOptions` (`RepoType` is its field `Type`). -/
structure RepositoryListByOrgOptions where
  RepoType : String
  ListOptions : ListOptions
deriving DecidableEq, Repr

/-- Type `github.Response`: the embedded HTTP status and the pagination field. -/
structure Response where
  StatusCode : Int
  NextPage : Int := 0
deriving DecidableEq, Repr

/-- An error value produced outside the package.  `ErrorResponse` is the dynamic
type `*github.ErrorResponse` (with `err.Response.StatusCode`); `Other` is an
error of any other dynamic type, for which the type assertion
`err.(*github.ErrorResponse)` fails. -/
inductive LibError where
  | ErrorResponse (StatusCode : Int) (Message : String)
  | Other (Message : String)
deriving DecidableEq, Repr

/-- A non-nil Go `error` as seen by a caller of the façade: an error handed
through from a library, or one of the three package-level values made with
`errors.New`, which no library can return. -/
inductive Error where
  | lib (e : LibError)
  | ErrBranchProtectionDeletion
  | ErrRepositoryNotFound
  | ErrIssueNotFound
deriving DecidableEq, Repr

/-- The `*http.Client` returned by `github_ratelimit.NewRateLimitWaiterClient`,
identified by its address. -/
structure HttpClient where
  addr : Nat
deriving DecidableEq, Repr

/-- Type `github.Client` as built by `github.NewClient`. -/
structure Client where
  client : HttpClient
deriving DecidableEq, Repr

/-- Type `githubv4.Client` as built by `githubv4.NewClient`. -/
structure ClientV4 where
  httpClient : HttpClient
deriving DecidableEq, Repr

/-- Function `github.NewClient`. -/
def NewClient (httpClient : HttpClient) : Client := ⟨httpClient⟩

/-- Function `githubv4.NewClient`. -/
def NewClientV4 (httpClient : HttpClient) : ClientV4 := ⟨httpClient⟩

/-- The element type of `BranchProtectionRule.Nodes` (github.go 25-27). -/
structure BranchProtectionRuleNode where
  Id : String
deriving DecidableEq, Repr

/-- The type of `BranchProtectionRule.PageInfo` (github.go 28-31). -/
structure PageInfo where
  EndCursor : String
  HasNextPage : Bool
deriving DecidableEq, Repr

/-- Type `BranchProtectionRule` (github.go 24-32). -/
structure BranchProtectionRule where
  Nodes : List BranchProtectionRuleNode
  PageInfo : PageInfo
deriving DecidableEq, Repr

/-- One call leaving the package, with its arguments. -/
inductive Call where
  | NewRateLimitWaiterClient (token : String)
  | OrganizationsEdit (c : Client) (org : String) (settings : Organization)
  | RepositoriesEdit (c : Client) (owner repo : String) (settings : Repository)
  | RepositoriesGet (c : Client) (owner repo : String)
  | RepositoriesListByOrg (c : Client) (org : String) (opt : RepositoryListByOrgOptions)
  | RepositoriesCreate (c : Client) (org : String) (repo : Repository)
  | ActionsListWorkflows (c : Client) (owner repo : String) (opt : ListOptions)
  | ActionsDisableWorkflowByID (c : Client) (owner repo : String) (id : Int)
  | ActionsEnableWorkflowByID (c : Client) (owner repo : String) (id : Int)
  | CodeScanningListAnalysesForRepo (c : Client) (owner repo : String) (ref : Option String)
  | IssuesGet (c : Client) (owner repo : String) (number : Int)
  | V4Query (c : ClientV4) (owner name : String) (cursor : Option String)
  | V4Mutate (c : ClientV4) (BranchProtectionRuleID : String)
deriving DecidableEq, Repr

/-- The world outside the package.  Every function receives the calls made
before it (oldest first) and returns what the library call returns: the value,
the `*github.Response` (nil when there was no HTTP response) and the error.
The default of each field is a provider that accepts the call and has nothing
to list; the theorems quantify over every `Env`, the defaults only shorten the
concrete providers further down. -/
structure Env where
  NewRateLimitWaiterClient : List Call → String → Except LibError HttpClient :=
    fun _ _ => .ok ⟨0⟩
  OrganizationsEdit : List Call → Client → String → Organization →
    Option Response × Option LibError := fun _ _ _ _ => (some ⟨200, 0⟩, none)
  RepositoriesEdit : List Call → Client → String → String → Repository →
    Option Response × Option LibError := fun _ _ _ _ _ => (some ⟨200, 0⟩, none)
  RepositoriesGet : List Call → Client → String → String →
    Option Repository × Option Response × Option LibError :=
    fun _ _ _ _ => (none, some ⟨200, 0⟩, none)
  RepositoriesListByOrg : List Call → Client → String → RepositoryListByOrgOptions →
    List Repository × Option Response × Option LibError :=
    fun _ _ _ _ => ([], some ⟨200, 0⟩, none)
  RepositoriesCreate : List Call → Client → String → Repository →
    Option Response × Option LibError := fun _ _ _ _ => (some ⟨201, 0⟩, none)
  ActionsListWorkflows : List Call → Client → String → String → ListOptions →
    List Workflow × Option Response × Option LibError :=
    fun _ _ _ _ _ => ([], some ⟨200, 0⟩, none)
  ActionsDisableWorkflowByID : List Call → Client → String → String → Int →
    Option Response × Option LibError := fun _ _ _ _ _ => (some ⟨204, 0⟩, none)
  ActionsEnableWorkflowByID : List Call → Client → String → String → Int →
    Option Response × Option LibError := fun _ _ _ _ _ => (some ⟨204, 0⟩, none)
  CodeScanningListAnalysesForRepo : List Call → Client → String → String → Option String →
    List ScanningAnalysis × Option Response × Option LibError :=
    fun _ _ _ _ _ => ([], some ⟨200, 0⟩, none)
  IssuesGet : List Call → Client → String → String → Int →
    Option Issue × Option Response × Option LibError :=
    fun _ _ _ _ _ => (none, some ⟨200, 0⟩, none)
  V4Query : List Call → ClientV4 → String → String → Option String →
    BranchProtectionRule × Option LibError := fun _ _ _ _ _ => (⟨[], ⟨"", false⟩⟩, none)
  V4Mutate : List Call → ClientV4 → String → Option LibError := fun _ _ _ => none

/-- The package-level variables `clientV3`, `clientV4`, `accessToken`, and the
calls made so far (oldest first). -/
structure World where
  clientV3 : Option Client := none
  clientV4 : Option ClientV4 := none
  accessToken : String := ""
  calls : List Call := []
deriving DecidableEq, Repr

/-- How a run of a façade function ends. -/
inductive Outcome (α : Type) where
  | returned (a : α)
  | panicked
  | outOfFuel
deriving DecidableEq, Repr

/-- Append a call to the record of calls. -/
def World.record (w : World) (c : Call) : World :=
  { w with calls := w.calls ++ [c] }

/-- Append several calls, in order, to the record of calls. -/
def World.recordAll (w : World) (cs : List Call) : World :=
  { w with calls := w.calls ++ cs }

/-! ## Client cache -/

/-- Function `checkClients` (github.go 47-67). -/
def checkClients (env : Env) (token : String) (w : World) : Option Error × World :=
  if w.clientV3.isNone || w.clientV4.isNone || token != w.accessToken then
    let w1 := { w with accessToken := token }
    let w2 := w1.record (Call.NewRateLimitWaiterClient token)
    match env.NewRateLimitWaiterClient w1.calls token with
    | .error err => (some (Error.lib err), w2)
    | .ok rateLimiter =>
      (none, { w2 with clientV3 := some (NewClient rateLimiter),
                       clientV4 := some (NewClientV4 rateLimiter) })
  else
    (none, w)

/-! ## Settings mutators -/

/-- Function `ChangeGHASOrgSettings` (github.go 123-137). -/
def ChangeGHASOrgSettings (env : Env) (organization : String) (activate : Bool)
    (token : String) (w : World) : Outcome (Option Error) × World :=
  let w := (checkClients env token w).2
  let newOrgSettings : Organization :=
    { AdvancedSecurityEnabledForNewRepos := some activate,
      SecretScanningPushProtectionEnabledForNewRepos := some activate,
      SecretScanningEnabledForNewRepos := some activate }
  match w.clientV3 with
  | none => (.panicked, w)
  | some c =>
    let r := env.OrganizationsEdit w.calls c organization newOrgSettings
    let w := w.record (Call.OrganizationsEdit c organization newOrgSettings)
    (.returned (r.2.map Error.lib), w)

/-- The `payload` built by `ChangeGhasRepoSettings` (github.go 142-165). -/
def ghasPayload (visibility ghas secretScanning pushProtection : String) :
    SecurityAndAnalysis :=
  if visibility = "public" then
    { SecretScanning := some { Status := some secretScanning },
      SecretScanningPushProtection := some { Status := some pushProtection } }
  else
    { AdvancedSecurity := some { Status := some ghas },
      SecretScanning := some { Status := some secretScanning },
      SecretScanningPushProtection := some { Status := some pushProtection } }

/-- Function `ChangeGhasRepoSettings` (github.go 139-186). -/
def ChangeGhasRepoSettings (env : Env) (organization : String) (repository : Repository)
    (ghas secretScanning pushProtection token : String) (w : World) :
    Outcome (Option Error) × World :=
  let w := (checkClients env token w).2
  match repository.Visibility with
  | none => (.panicked, w)
  | some visibility =>
    let payload := ghasPayload visibility ghas secretScanning pushProtection
    let newRepoSettings : Repository := { SecurityAndAnalysis := some payload }
    match w.clientV3, repository.Name with
    | some c, some name =>
      let r := env.RepositoriesEdit w.calls c organization name newRepoSettings
      let w := w.record (Call.RepositoriesEdit c organization name newRepoSettings)
      match r.2 with
      | some err =>
        match r.1 with
        | none => (.panicked, w)
        | some response =>
          if response.StatusCode = 422 then (.returned none, w)
          else (.returned (some (Error.lib err)), w)
      | none => (.returned none, w)
    | _, _ => (.panicked, w)

/-- Function `ChangeRepositoryVisibility` (github.go 232-253). -/
def ChangeRepositoryVisibility (env : Env) (organization repository visibility token : String)
    (w : World) : Outcome (Option Error) × World :=
  let w := (checkClients env token w).2
  let newRepoSettings : Repository := { Visibility := some visibility }
  match w.clientV3 with
  | none => (.panicked, w)
  | some c =>
    let r := env.RepositoriesEdit w.calls c organization repository newRepoSettings
    let w := w.record (Call.RepositoriesEdit c organization repository newRepoSettings)
    match r.2 with
    | some (.ErrorResponse status msg) =>
      if status = 422 then (.returned none, w)
      else (.returned (some (Error.lib (.ErrorResponse status msg))), w)
    | some err => (.returned (some (Error.lib err)), w)
    | none => (.returned none, w)

/-- Function `ChangeArchiveRepository` (github.go 386-403); it does not call
`checkClients` itself. -/
def ChangeArchiveRepository (env : Env) (organization repository : String) (archive : Bool)
    (_token : String) (w : World) : Outcome (Option Error) × World :=
  let newRepoSettings : Repository := { Archived := some archive }
  match w.clientV3 with
  | none => (.panicked, w)
  | some c =>
    let r := env.RepositoriesEdit w.calls c organization repository newRepoSettings
    let w := w.record (Call.RepositoriesEdit c organization repository newRepoSettings)
    match r.2 with
    | some (.ErrorResponse status msg) =>
      if status = 403 then (.returned none, w)
      else (.returned (some (Error.lib (.ErrorResponse status msg))), w)
    | some err => (.returned (some (Error.lib err)), w)
    | none => (.returned none, w)

/-- Function `ArchiveRepository` (github.go 374-378). -/
def ArchiveRepository (env : Env) (organization repository token : String) (w : World) :
    Outcome (Option Error) × World :=
  let w := (checkClients env token w).2
  ChangeArchiveRepository env organization repository true token w

/-- Function `UnarchiveRepository` (github.go 380-384). -/
def UnarchiveRepository (env : Env) (organization repository token : String) (w : World) :
    Outcome (Option Error) × World :=
  let w := (checkClients env token w).2
  ChangeArchiveRepository env organization repository false token w

/-- Function `CreateRepository` (github.go 405-424). -/
def CreateRepository (env : Env) (organization repository token : String) (w : World) :
    Outcome (Option Error) × World :=
  let w := (checkClients env token w).2
  let newRepo : Repository := { Name := some repository }
  match w.clientV3 with
  | none => (.panicked, w)
  | some c =>
    let r := env.RepositoriesCreate w.calls c organization newRepo
    let w := w.record (Call.RepositoriesCreate c organization newRepo)
    match r.2 with
    | some (.ErrorResponse status msg) =>
      if status = 422 then (.returned none, w)
      else (.returned (some (Error.lib (.ErrorResponse status msg))), w)
    | some err => (.returned (some (Error.lib err)), w)
    | none => (.returned none, w)

/-! ## Workflow toggles -/

/-- The `for _, workflow := range workflows` loop of `DisableWorkflowsForRepository`
(github.go 315-322), followed by the final `return nil`. -/
def disableLoop (env : Env) (organization repository : String) :
    List Workflow → World → Outcome (Option Error) × World
  | [], w => (.returned none, w)
  | workflow :: rest, w =>
    match w.clientV3, workflow.ID with
    | some c, some id =>
      let r := env.ActionsDisableWorkflowByID w.calls c organization repository id
      let w := w.record (Call.ActionsDisableWorkflowByID c organization repository id)
      match r.2 with
      | some (.ErrorResponse _ _) => (.returned none, w)
      | _ => disableLoop env organization repository rest w
    | _, _ => (.panicked, w)

/-- Function `DisableWorkflowsForRepository` (github.go 311-325). -/
def DisableWorkflowsForRepository (env : Env) (organization repository : String)
    (workflows : List Workflow) (token : String) (w : World) :
    Outcome (Option Error) × World :=
  let w := (checkClients env token w).2
  disableLoop env organization repository workflows w

/-- The `for _, workflow := range workflows` loop of `EnableWorkflowsForRepository`
(github.go 331-341), followed by the final `return nil`. -/
def enableLoop (env : Env) (organization repository : String) :
    List Workflow → World → Outcome (Option Error) × World
  | [], w => (.returned none, w)
  | workflow :: rest, w =>
    match w.clientV3, workflow.ID with
    | some c, some id =>
      let r := env.ActionsEnableWorkflowByID w.calls c organization repository id
      let w := w.record (Call.ActionsEnableWorkflowByID c organization repository id)
      match r.2 with
      | some (.ErrorResponse status msg) =>
        if status = 422 then (.returned none, w)
        else (.returned (some (Error.lib (.ErrorResponse status msg))), w)
      | _ => enableLoop env organization repository rest w
    | _, _ => (.panicked, w)

/-- Function `EnableWorkflowsForRepository` (github.go 327-344). -/
def EnableWorkflowsForRepository (env : Env) (organization repository : String)
    (workflows : List Workflow) (token : String) (w : World) :
    Outcome (Option Error) × World :=
  let w := (checkClients env token w).2
  enableLoop env organization repository workflows w

/-! ## Entity accessors -/

/-- Function `GetRepository` (github.go 188-203). -/
def GetRepository (env : Env) (repoName org token : String) (w : World) :
    Outcome (Option Repository × Option Error) × World :=
  let w := (checkClients env token w).2
  match w.clientV3 with
  | none => (.panicked, w)
  | some c =>
    let r := env.RepositoriesGet w.calls c org repoName
    let w := w.record (Call.RepositoriesGet c org repoName)
    match r.2.2 with
    | some (.ErrorResponse status msg) =>
      if status = 404 then (.returned (none, some Error.ErrRepositoryNotFound), w)
      else (.returned (none, some (Error.lib (.ErrorResponse status msg))), w)
    | some err => (.returned (none, some (Error.lib err)), w)
    | none => (.returned (r.1, none), w)

/-- Function `GetIssue` (github.go 439-455). -/
def GetIssue (env : Env) (organization repository : String) (issueNumber : Int)
    (token : String) (w : World) : Outcome (Option Issue × Option Error) × World :=
  let w := (checkClients env token w).2
  match w.clientV3 with
  | none => (.panicked, w)
  | some c =>
    let r := env.IssuesGet w.calls c organization repository issueNumber
    let w := w.record (Call.IssuesGet c organization repository issueNumber)
    match r.2.2 with
    | some (.ErrorResponse status msg) =>
      if status = 404 then (.returned (none, some Error.ErrIssueNotFound), w)
      else (.returned (none, some (Error.lib (.ErrorResponse status msg))), w)
    | some err => (.returned (none, some (Error.lib err)), w)
    | none => (.returned (r.1, none), w)

/-- Function `GetCodeScanningAnalysis` (github.go 346-372). -/
def GetCodeScanningAnalysis (env : Env) (organization repository defaultBranch token : String)
    (w : World) : Outcome (List ScanningAnalysis × Option Error) × World :=
  let w := (checkClients env token w).2
  match w.clientV3 with
  | none => (.panicked, w)
  | some c =>
    let r := env.CodeScanningListAnalysesForRepo w.calls c organization repository
      (some defaultBranch)
    let w := w.record
      (Call.CodeScanningListAnalysesForRepo c organization repository (some defaultBranch))
    match r.2.2 with
    | some (.ErrorResponse status msg) =>
      if status = 404 then (.returned ([], none), w)
      else (.returned ([], some (Error.lib (.ErrorResponse status msg))), w)
    | _ =>
      let analysis := r.1
      if analysis.length = 0 then (.returned ([], none), w)
      else (.returned (analysis.map id, none), w)

/-! ## Paginated listers -/

/-- The `for { ... }` loop of `GetRepositories` (github.go 211-222) followed by
the copy into `allReposStruct` and the return; `opt` and `allRepos` are the
loop-carried variables. -/
def getRepositoriesLoop (env : Env) (org : String) :
    Nat → RepositoryListByOrgOptions → List Repository → World →
    Outcome (List Repository × Option Error) × World
  | 0, _, _, w => (.outOfFuel, w)
  | fuel + 1, opt, allRepos, w =>
    match w.clientV3 with
    | none => (.panicked, w)
    | some c =>
      let r := env.RepositoriesListByOrg w.calls c org opt
      let w := w.record (Call.RepositoriesListByOrg c org opt)
      match r.2.2 with
      | some err => (.returned ([], some (Error.lib err)), w)
      | none =>
        let allRepos := allRepos ++ r.1
        match r.2.1 with
        | none => (.panicked, w)
        | some response =>
          if response.NextPage = 0 then
            (.returned (allRepos.foldl (fun allReposStruct repo => allReposStruct ++ [repo]) [],
              none), w)
          else
            getRepositoriesLoop env org fuel
              { opt with ListOptions := { opt.ListOptions with Page := response.NextPage } }
              allRepos w

/-- Function `GetRepositories` (github.go 205-230). -/
def GetRepositories (env : Env) (fuel : Nat) (org token : String) (w : World) :
    Outcome (List Repository × Option Error) × World :=
  let w := (checkClients env token w).2
  getRepositoriesLoop env org fuel
    { RepoType := "all", ListOptions := { PerPage := 10 } } [] w

/-- The `for { ... }` loop of `GetAllActiveWorkflowsForRepository` (github.go
261-272) followed by the filtering loop (274-279, which dereferences
`workflow.State`) and the return. -/
def getAllActiveWorkflowsLoop (env : Env) (organization repository : String) :
    Nat → ListOptions → List Workflow → World →
    Outcome (List Workflow × Option Error) × World
  | 0, _, _, w => (.outOfFuel, w)
  | fuel + 1, opt, allWorkflows, w =>
    match w.clientV3 with
    | none => (.panicked, w)
    | some c =>
      let r := env.ActionsListWorkflows w.calls c organization repository opt
      let w := w.record (Call.ActionsListWorkflows c organization repository opt)
      match r.2.2 with
      | some err => (.returned ([], some (Error.lib err)), w)
      | none =>
        let allWorkflows := allWorkflows ++ r.1
        match r.2.1 with
        | none => (.panicked, w)
        | some response =>
          if response.NextPage = 0 then
            if allWorkflows.all (fun workflow => workflow.State.isSome) then
              (.returned (allWorkflows.filter (fun workflow => workflow.State == some "active"),
                none), w)
            else (.panicked, w)
          else
            getAllActiveWorkflowsLoop env organization repository fuel
              { opt with Page := response.NextPage } allWorkflows w

/-- Function `GetAllActiveWorkflowsForRepository` (github.go 255-282). -/
def GetAllActiveWorkflowsForRepository (env : Env) (fuel : Nat)
    (organization repository token : String) (w : World) :
    Outcome (List Workflow × Option Error) × World :=
  let w := (checkClients env token w).2
  getAllActiveWorkflowsLoop env organization repository fuel { PerPage := 10 } [] w

/-- The `for { ... }` loop of `GetAllWorkflowsForRepository` (github.go 290-306)
followed by the return. -/
def getAllWorkflowsLoop (env : Env) (organization repository : String) :
    Nat → ListOptions → List Workflow → World →
    Outcome (List Workflow × Option Error) × World
  | 0, _, _, w => (.outOfFuel, w)
  | fuel + 1, opt, allWorkflows, w =>
    match w.clientV3 with
    | none => (.panicked, w)
    | some c =>
      let r := env.ActionsListWorkflows w.calls c organization repository opt
      let w := w.record (Call.ActionsListWorkflows c organization repository opt)
      match r.2.2 with
      | some err => (.returned ([], some (Error.lib err)), w)
      | none =>
        let allWorkflows := r.1.foldl (fun all workflow => all ++ [workflow]) allWorkflows
        match r.2.1 with
        | none => (.panicked, w)
        | some response =>
          if response.NextPage = 0 then (.returned (allWorkflows, none), w)
          else
            getAllWorkflowsLoop env organization repository fuel
              { opt with Page := response.NextPage } allWorkflows w

/-- Function `GetAllWorkflowsForRepository` (github.go 284-309). -/
def GetAllWorkflowsForRepository (env : Env) (fuel : Nat)
    (organization repository token : String) (w : World) :
    Outcome (List Workflow × Option Error) × World :=
  let w := (checkClients env token w).2
  getAllWorkflowsLoop env organization repository fuel { PerPage := 10 } [] w

/-! ## Branch protections -/

/-- The deletion loop of `DeleteBranchProtections` (github.go 102-118) followed
by the final `return nil`.  The key handed to `context.WithValue` is the
package variable `ctx`, which `checkClients` sets before it ever sets
`clientV4`, so it is non-nil whenever this loop is reached. -/
def deleteLoop (env : Env) : List String → World → Outcome (Option Error) × World
  | [], w => (.returned none, w)
  | branchProtection :: rest, w =>
    match w.clientV4 with
    | none => (.panicked, w)
    | some c =>
      let err := env.V4Mutate w.calls c branchProtection
      let w := w.record (Call.V4Mutate c branchProtection)
      match err with
      | some _ => (.returned (some Error.ErrBranchProtectionDeletion), w)
      | none => deleteLoop env rest w

/-- The listing loop of `DeleteBranchProtections` (github.go 85-99), which goes
on to the deletion loop when it breaks; `variables["cursor"]` and `results` are
the loop-carried variables.  `env.V4Query` yields the content of
`query.Repository.BranchProtectionRules` after the call, and the error. -/
def deleteBranchProtectionsLoop (env : Env) (organization repository : String) :
    Nat → Option String → List String → World → Outcome (Option Error) × World
  | 0, _, _, w => (.outOfFuel, w)
  | fuel + 1, cursor, results, w =>
    match w.clientV4 with
    | none => (.panicked, w)
    | some c =>
      let r := env.V4Query w.calls c organization repository cursor
      let w := w.record (Call.V4Query c organization repository cursor)
      match r.2 with
      | some err => (.returned (some (Error.lib err)), w)
      | none =>
        let results := r.1.Nodes.foldl (fun results protection => results ++ [protection.Id])
          results
        if !r.1.PageInfo.HasNextPage then deleteLoop env results w
        else
          deleteBranchProtectionsLoop env organization repository fuel
            (some r.1.PageInfo.EndCursor) results w

/-- Function `DeleteBranchProtections` (github.go 69-121). -/
def DeleteBranchProtections (env : Env) (fuel : Nat) (organization repository token : String)
    (w : World) : Outcome (Option Error) × World :=
  let w := (checkClients env token w).2
  deleteBranchProtectionsLoop env organization repository fuel none [] w

/-! ## Shapes of provider behaviour used in the statements -/

/-- From history `hist` on, the provider answers the `RepositoriesListByOrg`
requests of a listing that starts with options `opt` with exactly the given
pages, none failing: every page but the last carries a non-zero `NextPage`,
the last carries `NextPage = 0`. -/
def servesRepoPages (env : Env) (c : Client) (org : String) :
    List Call → RepositoryListByOrgOptions → List (List Repository × Response) → Prop
  | _, _, [] => False
  | hist, opt, [p] =>
    env.RepositoriesListByOrg hist c org opt = (p.1, some p.2, none) ∧ p.2.NextPage = 0
  | hist, opt, p :: q :: rest =>
    env.RepositoriesListByOrg hist c org opt = (p.1, some p.2, none) ∧ p.2.NextPage ≠ 0 ∧
    servesRepoPages env c org (hist ++ [Call.RepositoriesListByOrg c org opt])
      { opt with ListOptions := { opt.ListOptions with Page := p.2.NextPage } } (q :: rest)

/-- The `RepositoriesListByOrg` requests of a listing that starts with options
`opt` and then follows the given next-page indicators, in the order made. -/
def repoRequests (c : Client) (org : String) :
    RepositoryListByOrgOptions → List Int → List Call
  | opt, [] => [Call.RepositoriesListByOrg c org opt]
  | opt, next :: rest =>
    Call.RepositoriesListByOrg c org opt ::
      repoRequests c org { opt with ListOptions := { opt.ListOptions with Page := next } } rest

/-- From history `hist` on, the provider answers the `RepositoriesListByOrg`
requests of a listing that starts with options `opt` with the pages `good`,
none failing and each with a non-zero `NextPage`, and then fails the next
request with the error `e`. -/
def repoPagesThenError (env : Env) (c : Client) (org : String) (e : LibError) :
    List Call → RepositoryListByOrgOptions → List (List Repository × Response) → Prop
  | hist, opt, [] => (env.RepositoriesListByOrg hist c org opt).2.2 = some e
  | hist, opt, p :: rest =>
    env.RepositoriesListByOrg hist c org opt = (p.1, some p.2, none) ∧ p.2.NextPage ≠ 0 ∧
    repoPagesThenError env c org e (hist ++ [Call.RepositoriesListByOrg c org opt])
      { opt with ListOptions := { opt.ListOptions with Page := p.2.NextPage } } rest

/-- From history `hist` on, the provider answers the `ActionsListWorkflows`
requests of a listing that starts with options `opt` with exactly the given
pages, none failing: every page but the last carries a non-zero `NextPage`,
the last carries `NextPage = 0`. -/
def servesWorkflowPages (env : Env) (c : Client) (owner repo : String) :
    List Call → ListOptions → List (List Workflow × Response) → Prop
  | _, _, [] => False
  | hist, opt, [p] =>
    env.ActionsListWorkflows hist c owner repo opt = (p.1, some p.2, none) ∧ p.2.NextPage = 0
  | hist, opt, p :: q :: rest =>
    env.ActionsListWorkflows hist c owner repo opt = (p.1, some p.2, none) ∧
    p.2.NextPage ≠ 0 ∧
    servesWorkflowPages env c owner repo (hist ++ [Call.ActionsListWorkflows c owner repo opt])
      { opt with Page := p.2.NextPage } (q :: rest)

/-- The `ActionsListWorkflows` requests of a listing that starts with options
`opt` and then follows the given next-page indicators, in the order made. -/
def workflowRequests (c : Client) (owner repo : String) : ListOptions → List Int → List Call
  | opt, [] => [Call.ActionsListWorkflows c owner repo opt]
  | opt, next :: rest =>
    Call.ActionsListWorkflows c owner repo opt ::
      workflowRequests c owner repo { opt with Page := next } rest

/-- From history `hist` on, the provider answers the `ActionsListWorkflows`
requests of a listing that starts with options `opt` with the pages `good`,
none failing and each with a non-zero `NextPage`, and then fails the next
request with the error `e`. -/
def workflowPagesThenError (env : Env) (c : Client) (owner repo : String) (e : LibError) :
    List Call → ListOptions → List (List Workflow × Response) → Prop
  | hist, opt, [] => (env.ActionsListWorkflows hist c owner repo opt).2.2 = some e
  | hist, opt, p :: rest =>
    env.ActionsListWorkflows hist c owner repo opt = (p.1, some p.2, none) ∧
    p.2.NextPage ≠ 0 ∧
    workflowPagesThenError env c owner repo e
      (hist ++ [Call.ActionsListWorkflows c owner repo opt])
      { opt with Page := p.2.NextPage } rest

/-- From history `hist` on, the provider answers the listing queries that start
at `cursor` with exactly the given pages, none failing: every page but the last
has `HasNextPage` set, the last has not. -/
def servesRulePages (env : Env) (c : ClientV4) (owner name : String) :
    List Call → Option String → List BranchProtectionRule → Prop
  | _, _, [] => False
  | hist, cursor, [p] =>
    env.V4Query hist c owner name cursor = (p, none) ∧ p.PageInfo.HasNextPage = false
  | hist, cursor, p :: q :: rest =>
    env.V4Query hist c owner name cursor = (p, none) ∧ p.PageInfo.HasNextPage = true ∧
    servesRulePages env c owner name (hist ++ [Call.V4Query c owner name cursor])
      (some p.PageInfo.EndCursor) (q :: rest)

/-- From history `hist` on, the provider answers the listing queries that start
at `cursor` with the pages `good`, none failing and each with `HasNextPage`
set, and then fails the next query with the error `e`. -/
def rulePagesThenError (env : Env) (c : ClientV4) (owner name : String) (e : LibError) :
    List Call → Option String → List BranchProtectionRule → Prop
  | hist, cursor, [] => (env.V4Query hist c owner name cursor).2 = some e
  | hist, cursor, p :: rest =>
    env.V4Query hist c owner name cursor = (p, none) ∧ p.PageInfo.HasNextPage = true ∧
    rulePagesThenError env c owner name e (hist ++ [Call.V4Query c owner name cursor])
      (some p.PageInfo.EndCursor) rest

/-- The listing queries of a run that starts at `cursor` and then follows the
given end cursors, in the order made. -/
def ruleQueries (c : ClientV4) (owner name : String) : Option String → List String → List Call
  | cursor, [] => [Call.V4Query c owner name cursor]
  | cursor, next :: rest =>
    Call.V4Query c owner name cursor :: ruleQueries c owner name (some next) rest

/-- The rule ids of the given listing pages, in provider order. -/
def ruleIds (pages : List BranchProtectionRule) : List String :=
  (pages.map (fun p => p.Nodes.map (fun protection => protection.Id))).flatten

/-- From history `hist` on, the provider accepts the delete mutations for the
given rule ids, issued in that order. -/
def mutationsSucceed (env : Env) (c : ClientV4) : List Call → List String → Prop
  | _, [] => True
  | hist, id :: rest =>
    env.V4Mutate hist c id = none ∧
    mutationsSucceed env c (hist ++ [Call.V4Mutate c id]) rest

/-- Whether a call is a delete mutation. -/
def Call.isMutation : Call → Bool
  | .V4Mutate _ _ => true
  | _ => false

/-- A sequence of `checkClients` calls, one per token and in the order of the
list: the value returned by each call, and the state after the last. -/
def checkClientsAll (env : Env) : List String → World → List (Option Error) × World
  | [], w => ([], w)
  | token :: rest, w =>
    let r := checkClients env token w
    let rs := checkClientsAll env rest r.2
    (r.1 :: rs.1, rs.2)

/-- The cached pair belongs to the cached token: when `clientV3` and `clientV4`
are both present, the record of calls holds a transport construction for
`accessToken` which, made after the calls before it, yielded the HTTP client
on which both clients are built. -/
def ClientsBuiltFromAccessToken (env : Env) (w : World) : Prop :=
  ∀ c3 c4, w.clientV3 = some c3 → w.clientV4 = some c4 →
    ∃ hist later rateLimiter,
      w.calls = hist ++ Call.NewRateLimitWaiterClient w.accessToken :: later ∧
      env.NewRateLimitWaiterClient hist w.accessToken = .ok rateLimiter ∧
      c3 = NewClient rateLimiter ∧ c4 = NewClientV4 rateLimiter

/-! ## Concrete providers used to evaluate the code -/

/-- A provider whose disable call answers HTTP 500 for workflow `bad` and
succeeds for every other workflow. -/
def envDisableRejects (bad : Int) : Env :=
  { ActionsDisableWorkflowByID := fun _ _ _ _ id =>
      if id = bad then (some ⟨500, 0⟩, some (.ErrorResponse 500 "Internal Server Error"))
      else (some ⟨204, 0⟩, none) }

/-- A provider whose enable call answers HTTP 422 for workflow `already` and
succeeds for every other workflow. -/
def envEnableUnprocessable (already : Int) : Env :=
  { ActionsEnableWorkflowByID := fun _ _ _ _ id =>
      if id = already then (some ⟨422, 0⟩, some (.ErrorResponse 422 "Unprocessable Entity"))
      else (some ⟨204, 0⟩, none) }

/-- A provider that cannot be reached: every REST call fails without an HTTP
response, with an error that is not a `*github.ErrorResponse`. -/
def envUnreachable : Env :=
  { OrganizationsEdit := fun _ _ _ _ => (none, some (.Other "connection refused")),
    RepositoriesEdit := fun _ _ _ _ _ => (none, some (.Other "connection refused")),
    RepositoriesGet := fun _ _ _ _ => (none, none, some (.Other "connection refused")),
    RepositoriesListByOrg := fun _ _ _ _ => ([], none, some (.Other "connection refused")),
    RepositoriesCreate := fun _ _ _ _ => (none, some (.Other "connection refused")),
    ActionsListWorkflows := fun _ _ _ _ _ => ([], none, some (.Other "connection refused")),
    ActionsDisableWorkflowByID := fun _ _ _ _ _ => (none, some (.Other "connection refused")),
    ActionsEnableWorkflowByID := fun _ _ _ _ _ => (none, some (.Other "connection refused")),
    CodeScanningListAnalysesForRepo := fun _ _ _ _ _ =>
      ([], none, some (.Other "connection refused")),
    IssuesGet := fun _ _ _ _ _ => (none, none, some (.Other "connection refused")) }

/-- A provider with three repositories and three workflows on two pages: the
request for page 0 is answered with two items and `NextPage = 2`, the request
for page 2 with one item and `NextPage = 0`. -/
def envTwoPages : Env :=
  { RepositoriesListByOrg := fun _ _ _ opt =>
      if opt.ListOptions.Page = 0 then
        ([{ Name := some "a" }, { Name := some "b" }], some ⟨200, 2⟩, none)
      else ([{ Name := some "c" }], some ⟨200, 0⟩, none),
    ActionsListWorkflows := fun _ _ _ _ opt =>
      if opt.Page = 0 then
        ([{ ID := some 1 }, { ID := some 2 }], some ⟨200, 2⟩, none)
      else ([{ ID := some 3 }], some ⟨200, 0⟩, none) }

/-- A provider whose first page (the request for page 0) holds two items with
`NextPage = 2` and whose second page (the request for page 2) fails with
HTTP 502. -/
def envSecondPageFails : Env :=
  { RepositoriesListByOrg := fun _ _ _ opt =>
      if opt.ListOptions.Page = 0 then
        ([{ Name := some "a" }, { Name := some "b" }], some ⟨200, 2⟩, none)
      else ([], some ⟨502, 0⟩, some (.ErrorResponse 502 "Bad Gateway")),
    ActionsListWorkflows := fun _ _ _ _ opt =>
      if opt.Page = 0 then
        ([{ ID := some 1, State := some "active" }, { ID := some 2, State := some "active" }],
          some ⟨200, 2⟩, none)
      else ([], some ⟨502, 0⟩, some (.ErrorResponse 502 "Bad Gateway")) }

/-- A provider that accepts a settings change or a creation the first time and
answers a repetition of the very same request with the status for 'already in
that state': HTTP 403 for an archive change, HTTP 422 otherwise. -/
def envAlreadyApplied : Env :=
  { RepositoriesEdit := fun hist c owner repo settings =>
      if Call.RepositoriesEdit c owner repo settings ∈ hist then
        if settings.Archived.isSome then
          (some ⟨403, 0⟩, some (.ErrorResponse 403 "Forbidden"))
        else (some ⟨422, 0⟩, some (.ErrorResponse 422 "Unprocessable Entity"))
      else (some ⟨200, 0⟩, none),
    RepositoriesCreate := fun hist c org repo =>
      if Call.RepositoriesCreate c org repo ∈ hist then
        (some ⟨422, 0⟩, some (.ErrorResponse 422 "Unprocessable Entity"))
      else (some ⟨201, 0⟩, none) }

/-- A provider that answers every REST call with a provider error of the given
status. -/
def envStatus (status : Int) : Env :=
  { OrganizationsEdit := fun _ _ _ _ => (some ⟨status, 0⟩, some (.ErrorResponse status "")),
    RepositoriesEdit := fun _ _ _ _ _ => (some ⟨status, 0⟩, some (.ErrorResponse status "")),
    RepositoriesGet := fun _ _ _ _ =>
      (none, some ⟨status, 0⟩, some (.ErrorResponse status "")),
    RepositoriesListByOrg := fun _ _ _ _ =>
      ([], some ⟨status, 0⟩, some (.ErrorResponse status "")),
    RepositoriesCreate := fun _ _ _ _ => (some ⟨status, 0⟩, some (.ErrorResponse status "")),
    ActionsListWorkflows := fun _ _ _ _ _ =>
      ([], some ⟨status, 0⟩, some (.ErrorResponse status "")),
    ActionsDisableWorkflowByID := fun _ _ _ _ _ =>
      (some ⟨status, 0⟩, some (.ErrorResponse status "")),
    ActionsEnableWorkflowByID := fun _ _ _ _ _ =>
      (some ⟨status, 0⟩, some (.ErrorResponse status "")),
    CodeScanningListAnalysesForRepo := fun _ _ _ _ _ =>
      ([], some ⟨status, 0⟩, some (.ErrorResponse status "")),
    IssuesGet := fun _ _ _ _ _ => (none, some ⟨status, 0⟩, some (.ErrorResponse status "")) }

/-- A provider that knows the repository and the issue asked for. -/
def envFound : Env :=
  { RepositoriesGet := fun _ _ _ repo =>
      (some { Name := some repo, Visibility := some "private" }, some ⟨200, 0⟩, none),
    IssuesGet := fun _ _ _ _ number =>
      (some { Number := some number, Title := some "title" }, some ⟨200, 0⟩, none) }

/-- A world in which constructing the transport always fails. -/
def envInitFails : Env :=
  { NewRateLimitWaiterClient := fun _ _ => .error (.Other "transport construction failed") }

/-- A world in which the transport built for a token is the HTTP client whose
address is the length of the token. -/
def envClientPerToken : Env :=
  { NewRateLimitWaiterClient := fun _ token => .ok ⟨token.length⟩ }

/-- A repository whose branch protection rules are listed on two pages: the
query without cursor yields the rules "r1" and "r2" with end cursor "c1" and
`HasNextPage` set, the query after "c1" yields the rule "r3" and no further
page.  The delete mutation for the rule `refused`, if one is given, fails, and
with `secondPageFails` the query after "c1" fails. -/
def envRules (refused : Option String) (secondPageFails : Bool) : Env :=
  { V4Query := fun _ _ _ _ cursor =>
      if cursor = none then (⟨[⟨"r1"⟩, ⟨"r2"⟩], ⟨"c1", true⟩⟩, none)
      else if secondPageFails then (⟨[], ⟨"", false⟩⟩, some (.Other "query failed"))
      else (⟨[⟨"r3"⟩], ⟨"c2", false⟩⟩, none),
    V4Mutate := fun _ _ id =>
      if some id = refused then some (.Other "mutation failed") else none }

/-- A world in which the transport built for a token is the HTTP client whose
address is the length of the token, except that the first construction for the
token `bad` fails. -/
def envRebuildFailsOnce (bad : String) : Env :=
  { NewRateLimitWaiterClient := fun hist token =>
      if token = bad ∧ Call.NewRateLimitWaiterClient bad ∉ hist then
        .error (.Other "transport construction failed")
      else .ok ⟨token.length⟩ }

/-! ## Theorems -/

/-- C1 (the code departs from the claim): with workflows 1 and 2, where the
disable call for workflow 1 is answered with HTTP 500 and the one for workflow 2
would succeed, `DisableWorkflowsForRepository` returns nil after a single
disable call: the loop does not go on to workflow 2. -/
theorem DisableWorkflowsForRepository_stops_after_error_response :
    DisableWorkflowsForRepository (envDisableRejects 1) "org" "repo"
      [{ ID := some 1 }, { ID := some 2 }] "token" {} =
    (.returned none,
      { clientV3 := some (NewClient ⟨0⟩), clientV4 := some (NewClientV4 ⟨0⟩),
        accessToken := "token",
        calls := [Call.NewRateLimitWaiterClient "token",
                  Call.ActionsDisableWorkflowByID (NewClient ⟨0⟩) "org" "repo" 1] }) := by
  decide

/-- C2 (the code departs from the claim): with workflows 1 and 2, where the
enable call for workflow 1 is answered with HTTP 422 and the one for workflow 2
would succeed, `EnableWorkflowsForRepository` returns nil after a single enable
call: workflow 2 is never enabled. -/
theorem EnableWorkflowsForRepository_stops_after_422 :
    EnableWorkflowsForRepository (envEnableUnprocessable 1) "org" "repo"
      [{ ID := some 1 }, { ID := some 2 }] "token" {} =
    (.returned none,
      { clientV3 := some (NewClient ⟨0⟩), clientV4 := some (NewClientV4 ⟨0⟩),
        accessToken := "token",
        calls := [Call.NewRateLimitWaiterClient "token",
                  Call.ActionsEnableWorkflowByID (NewClient ⟨0⟩) "org" "repo" 1] }) := by
  decide

/-! ### Network-level errors -/

@[simp] theorem record_clientV3 (w : World) (call : Call) :
    (w.record call).clientV3 = w.clientV3 := rfl

@[simp] theorem record_calls (w : World) (call : Call) :
    (w.record call).calls = w.calls ++ [call] := rfl

/-- The disable loop has no path that returns an error: with a client in place
and every workflow carrying an ID it returns nil, whatever the provider answers. -/
theorem disableLoop_returns_nil (env : Env) (organization repository : String) (c : Client) :
    ∀ (workflows : List Workflow) (w : World), w.clientV3 = some c →
      (∀ workflow ∈ workflows, workflow.ID.isSome = true) →
      (disableLoop env organization repository workflows w).1 = .returned none := by
  intro workflows
  induction workflows with
  | nil => intro w _ _; rfl
  | cons workflow rest ih =>
    intro w hc hid
    obtain ⟨id, hwid⟩ := Option.isSome_iff_exists.mp (hid workflow (List.mem_cons_self _ _))
    have hrest : ∀ x ∈ rest, x.ID.isSome = true := fun x hx => hid x (List.mem_cons_of_mem _ hx)
    simp only [disableLoop, hc, hwid]
    split
    · rfl
    · exact ih _ (by simpa using hc) hrest

/-- C3 (counterexample): the provider cannot be reached, so the disable call
fails with an error that is not a provider error response and without an HTTP
response; `DisableWorkflowsForRepository` nevertheless returns nil. -/
theorem DisableWorkflowsForRepository_swallows_network_error :
    envUnreachable.ActionsDisableWorkflowByID [Call.NewRateLimitWaiterClient "token"]
        (NewClient ⟨0⟩) "org" "repo" 1 = (none, some (.Other "connection refused")) ∧
    (DisableWorkflowsForRepository envUnreachable "org" "repo" [{ ID := some 1 }] "token" {}).1 =
      .returned none := by
  decide

/-- C3 (amended): once `checkClients` has left a REST client `c` in place, a
provider call that fails with an error `Other msg` (not a provider error
response) makes `ChangeRepositoryVisibility`, `ChangeArchiveRepository`,
`CreateRepository`, `GetRepository` and `GetIssue` return exactly that error,
which is non-nil, with no entity; `DisableWorkflowsForRepository` returns nil
whatever its calls answer. -/
theorem network_error_is_returned (env : Env) (w : World) (token : String) (c : Client)
    (msg : String) (hc : (checkClients env token w).2.clientV3 = some c) :
    (∀ organization repository visibility,
      (env.RepositoriesEdit (checkClients env token w).2.calls c organization repository
        { Visibility := some visibility }).2 = some (.Other msg) →
      (ChangeRepositoryVisibility env organization repository visibility token w).1 =
        .returned (some (Error.lib (.Other msg)))) ∧
    (∀ organization repository archive,
      (env.RepositoriesEdit (checkClients env token w).2.calls c organization repository
        { Archived := some archive }).2 = some (.Other msg) →
      (ChangeArchiveRepository env organization repository archive token
        (checkClients env token w).2).1 = .returned (some (Error.lib (.Other msg)))) ∧
    (∀ organization repository,
      (env.RepositoriesCreate (checkClients env token w).2.calls c organization
        { Name := some repository }).2 = some (.Other msg) →
      (CreateRepository env organization repository token w).1 =
        .returned (some (Error.lib (.Other msg)))) ∧
    (∀ repoName org,
      (env.RepositoriesGet (checkClients env token w).2.calls c org repoName).2.2 =
        some (.Other msg) →
      (GetRepository env repoName org token w).1 =
        .returned (none, some (Error.lib (.Other msg)))) ∧
    (∀ organization repository issueNumber,
      (env.IssuesGet (checkClients env token w).2.calls c organization repository
        issueNumber).2.2 = some (.Other msg) →
      (GetIssue env organization repository issueNumber token w).1 =
        .returned (none, some (Error.lib (.Other msg)))) ∧
    (∀ organization repository workflows,
      (∀ workflow ∈ workflows, workflow.ID.isSome = true) →
      (DisableWorkflowsForRepository env organization repository workflows token w).1 =
        .returned none) := by
  refine ⟨?_, ?_, ?_, ?_, ?_, ?_⟩
  · intro organization repository visibility h
    simp only [ChangeRepositoryVisibility, hc, h]
  · intro organization repository archive h
    simp only [ChangeArchiveRepository, hc, h]
  · intro organization repository h
    simp only [CreateRepository, hc, h]
  · intro repoName org h
    simp only [GetRepository, hc, h]
  · intro organization repository issueNumber h
    simp only [GetIssue, hc, h]
  · intro organization repository workflows hid
    exact disableLoop_returns_nil env organization repository c workflows _ hc hid

/-- C3 (witness): the amended statement applied to the unreachable provider in a
fresh process. -/
theorem network_error_is_returned_witness :
    (ChangeRepositoryVisibility envUnreachable "org" "repo" "private" "token" {}).1 =
      .returned (some (Error.lib (.Other "connection refused"))) ∧
    (ChangeArchiveRepository envUnreachable "org" "repo" true "token"
      (checkClients envUnreachable "token" {}).2).1 =
      .returned (some (Error.lib (.Other "connection refused"))) ∧
    (CreateRepository envUnreachable "org" "repo" "token" {}).1 =
      .returned (some (Error.lib (.Other "connection refused"))) ∧
    (GetRepository envUnreachable "repo" "org" "token" {}).1 =
      .returned (none, some (Error.lib (.Other "connection refused"))) ∧
    (GetIssue envUnreachable "org" "repo" 7 "token" {}).1 =
      .returned (none, some (Error.lib (.Other "connection refused"))) ∧
    (DisableWorkflowsForRepository envUnreachable "org" "repo"
      [{ ID := some 1 }, { ID := some 2 }] "token" {}).1 = .returned none :=
  have h := network_error_is_returned envUnreachable {} "token" (NewClient ⟨0⟩)
    "connection refused" (by decide)
  ⟨h.1 "org" "repo" "private" (by decide),
   h.2.1 "org" "repo" true (by decide),
   h.2.2.1 "org" "repo" (by decide),
   h.2.2.2.1 "repo" "org" (by decide),
   h.2.2.2.2.1 "org" "repo" 7 (by decide),
   h.2.2.2.2.2 "org" "repo" [{ ID := some 1 }, { ID := some 2 }] (by decide)⟩

/-- Where the remaining operations of C3 stand on the unreachable provider:
`ChangeGhasRepoSettings` dereferences the missing response and panics,
`EnableWorkflowsForRepository` returns nil, and `GetCodeScanningAnalysis`
returns no analyses and a nil error. -/
theorem network_error_elsewhere :
    (ChangeGhasRepoSettings envUnreachable "org"
      { Name := some "repo", Visibility := some "private" }
      "enabled" "enabled" "enabled" "token" {}).1 = .panicked ∧
    (EnableWorkflowsForRepository envUnreachable "org" "repo" [{ ID := some 1 }] "token" {}).1 =
      .returned none ∧
    (GetCodeScanningAnalysis envUnreachable "org" "repo" "main" "token" {}).1 =
      .returned ([], none) := by
  decide

/-! ### Paginated listing -/

/-- Appending the elements of a slice one at a time appends the slice. -/
theorem foldl_append_singleton {α : Type} (l init : List α) :
    l.foldl (fun acc x => acc ++ [x]) init = init ++ l := by
  induction l generalizing init with
  | nil => simp
  | cons a l ih => simp [ih]

theorem repoRequests_length (c : Client) (org : String) :
    ∀ (nexts : List Int) (opt : RepositoryListByOrgOptions),
      (repoRequests c org opt nexts).length = nexts.length + 1 := by
  intro nexts
  induction nexts with
  | nil => intro opt; rfl
  | cons next rest ih => intro opt; simp [repoRequests, ih]

theorem workflowRequests_length (c : Client) (owner repo : String) :
    ∀ (nexts : List Int) (opt : ListOptions),
      (workflowRequests c owner repo opt nexts).length = nexts.length + 1 := by
  intro nexts
  induction nexts with
  | nil => intro opt; rfl
  | cons next rest ih => intro opt; simp [workflowRequests, ih]

theorem record_eq_recordAll (w : World) (call : Call) :
    w.record call = w.recordAll [call] := rfl

theorem recordAll_recordAll (w : World) (cs ds : List Call) :
    (w.recordAll cs).recordAll ds = w.recordAll (cs ++ ds) := by
  simp [World.recordAll]

@[simp] theorem recordAll_clientV3 (w : World) (cs : List Call) :
    (w.recordAll cs).clientV3 = w.clientV3 := rfl

@[simp] theorem recordAll_calls (w : World) (cs : List Call) :
    (w.recordAll cs).calls = w.calls ++ cs := rfl

/-- The repository loop on a provider that serves `pages`: it returns the
accumulated items followed by all pages, after one request per page. -/
theorem getRepositoriesLoop_serves (env : Env) (org : String) (c : Client) :
    ∀ (pages : List (List Repository × Response)) (fuel : Nat)
      (opt : RepositoryListByOrgOptions) (acc : List Repository) (w : World),
      w.clientV3 = some c → servesRepoPages env c org w.calls opt pages →
      pages.length ≤ fuel →
      getRepositoriesLoop env org fuel opt acc w =
        (.returned (acc ++ (pages.map Prod.fst).flatten, none),
          w.recordAll
            (repoRequests c org opt ((pages.map (fun p => p.2.NextPage)).dropLast))) := by
  intro pages
  induction pages with
  | nil => intro fuel opt acc w _ hs _; exact absurd hs (by simp [servesRepoPages])
  | cons p rest ih =>
    intro fuel opt acc w hc hs hfuel
    cases fuel with
    | zero => simp at hfuel
    | succ fuel =>
      cases rest with
      | nil =>
        obtain ⟨hp, hlast⟩ := hs
        simp only [getRepositoriesLoop, hc, hp, hlast, if_true, foldl_append_singleton,
          List.nil_append, List.map, List.flatten, List.append_nil, List.dropLast,
          repoRequests, record_eq_recordAll]
      | cons q rest =>
        obtain ⟨hp, hnext, hrest⟩ := hs
        have hlen : (q :: rest).length ≤ fuel := by simpa using hfuel
        have h := ih fuel
          { opt with ListOptions := { opt.ListOptions with Page := p.2.NextPage } }
          (acc ++ p.1) (w.record (Call.RepositoriesListByOrg c org opt))
          (by simpa using hc) (by simpa using hrest) hlen
        simp only [getRepositoriesLoop, hc, hp, hnext, if_false, h]
        simp [record_eq_recordAll, recordAll_recordAll, repoRequests]

/-- The workflow loop on a provider that serves `pages`: it returns the
accumulated items followed by all pages, after one request per page. -/
theorem getAllWorkflowsLoop_serves (env : Env) (owner repo : String) (c : Client) :
    ∀ (pages : List (List Workflow × Response)) (fuel : Nat)
      (opt : ListOptions) (acc : List Workflow) (w : World),
      w.clientV3 = some c → servesWorkflowPages env c owner repo w.calls opt pages →
      pages.length ≤ fuel →
      getAllWorkflowsLoop env owner repo fuel opt acc w =
        (.returned (acc ++ (pages.map Prod.fst).flatten, none),
          w.recordAll
            (workflowRequests c owner repo opt
              ((pages.map (fun p => p.2.NextPage)).dropLast))) := by
  intro pages
  induction pages with
  | nil => intro fuel opt acc w _ hs _; exact absurd hs (by simp [servesWorkflowPages])
  | cons p rest ih =>
    intro fuel opt acc w hc hs hfuel
    cases fuel with
    | zero => simp at hfuel
    | succ fuel =>
      cases rest with
      | nil =>
        obtain ⟨hp, hlast⟩ := hs
        simp only [getAllWorkflowsLoop, hc, hp, hlast, if_true, foldl_append_singleton,
          List.map, List.flatten, List.append_nil, List.dropLast,
          workflowRequests, record_eq_recordAll]
      | cons q rest =>
        obtain ⟨hp, hnext, hrest⟩ := hs
        have hlen : (q :: rest).length ≤ fuel := by simpa using hfuel
        have h := ih fuel { opt with Page := p.2.NextPage }
          (acc ++ p.1) (w.record (Call.ActionsListWorkflows c owner repo opt))
          (by simpa using hc) (by simpa using hrest) hlen
        simp only [getAllWorkflowsLoop, hc, hp, hnext, if_false, foldl_append_singleton, h]
        simp [record_eq_recordAll, recordAll_recordAll, workflowRequests]

/-- C4: once `checkClients` has left a REST client `c` in place, if the
provider serves `pages` (N pages, none failing, `NextPage` non-zero on every
page but the last and zero on the last) and the fuel covers N iterations,
`GetRepositories` and `GetAllWorkflowsForRepository` return a nil error and
the concatenation of the pages in provider order, which has M items, M being
the sum of the page sizes, and the calls they add are exactly N page requests:
the first for page 0, each later one for the `NextPage` of the page before. -/
theorem paginated_listing_returns_all_pages (env : Env) (w : World) (token : String)
    (c : Client) (hc : (checkClients env token w).2.clientV3 = some c) :
    (∀ (org : String) (pages : List (List Repository × Response)) (fuel : Nat),
      servesRepoPages env c org (checkClients env token w).2.calls
        { RepoType := "all", ListOptions := { PerPage := 10 } } pages →
      pages.length ≤ fuel →
      GetRepositories env fuel org token w =
        (.returned ((pages.map Prod.fst).flatten, none),
          (checkClients env token w).2.recordAll
            (repoRequests c org { RepoType := "all", ListOptions := { PerPage := 10 } }
              ((pages.map (fun p => p.2.NextPage)).dropLast))) ∧
      ((pages.map Prod.fst).flatten).length = ((pages.map (fun p => p.1.length)).sum) ∧
      (repoRequests c org { RepoType := "all", ListOptions := { PerPage := 10 } }
        ((pages.map (fun p => p.2.NextPage)).dropLast)).length = pages.length) ∧
    (∀ (organization repository : String) (pages : List (List Workflow × Response))
      (fuel : Nat),
      servesWorkflowPages env c organization repository (checkClients env token w).2.calls
        { PerPage := 10 } pages →
      pages.length ≤ fuel →
      GetAllWorkflowsForRepository env fuel organization repository token w =
        (.returned ((pages.map Prod.fst).flatten, none),
          (checkClients env token w).2.recordAll
            (workflowRequests c organization repository { PerPage := 10 }
              ((pages.map (fun p => p.2.NextPage)).dropLast))) ∧
      ((pages.map Prod.fst).flatten).length = ((pages.map (fun p => p.1.length)).sum) ∧
      (workflowRequests c organization repository { PerPage := 10 }
        ((pages.map (fun p => p.2.NextPage)).dropLast)).length = pages.length) := by
  constructor
  · intro org pages fuel hs hfuel
    have hne : pages ≠ [] := by
      rintro rfl
      simp [servesRepoPages] at hs
    have hpos : 0 < pages.length := List.length_pos.mpr hne
    refine ⟨?_, ?_, ?_⟩
    · have h := getRepositoriesLoop_serves env org c pages fuel _ [] _ hc hs hfuel
      simpa [GetRepositories] using h
    · simp [List.length_flatten, List.map_map, Function.comp_def]
    · rw [repoRequests_length]
      simp only [List.length_dropLast, List.length_map]
      omega
  · intro organization repository pages fuel hs hfuel
    have hne : pages ≠ [] := by
      rintro rfl
      simp [servesWorkflowPages] at hs
    have hpos : 0 < pages.length := List.length_pos.mpr hne
    refine ⟨?_, ?_, ?_⟩
    · have h := getAllWorkflowsLoop_serves env organization repository c pages fuel _ [] _
        hc hs hfuel
      simpa [GetAllWorkflowsForRepository] using h
    · simp [List.length_flatten, List.map_map, Function.comp_def]
    · rw [workflowRequests_length]
      simp only [List.length_dropLast, List.length_map]
      omega

/-- C4 (witness): the two-page provider in a fresh process, with fuel 2: both
listers return the three items in provider order after requests for pages 0
and 2. -/
theorem paginated_listing_returns_all_pages_witness :
    (GetRepositories envTwoPages 2 "org" "token" {} =
      (.returned ([{ Name := some "a" }, { Name := some "b" }, { Name := some "c" }], none),
        { clientV3 := some (NewClient ⟨0⟩), clientV4 := some (NewClientV4 ⟨0⟩),
          accessToken := "token",
          calls := [Call.NewRateLimitWaiterClient "token",
            Call.RepositoriesListByOrg (NewClient ⟨0⟩) "org"
              { RepoType := "all", ListOptions := { Page := 0, PerPage := 10 } },
            Call.RepositoriesListByOrg (NewClient ⟨0⟩) "org"
              { RepoType := "all", ListOptions := { Page := 2, PerPage := 10 } }] })) ∧
    (GetAllWorkflowsForRepository envTwoPages 2 "org" "repo" "token" {} =
      (.returned ([{ ID := some 1 }, { ID := some 2 }, { ID := some 3 }], none),
        { clientV3 := some (NewClient ⟨0⟩), clientV4 := some (NewClientV4 ⟨0⟩),
          accessToken := "token",
          calls := [Call.NewRateLimitWaiterClient "token",
            Call.ActionsListWorkflows (NewClient ⟨0⟩) "org" "repo" { Page := 0, PerPage := 10 },
            Call.ActionsListWorkflows (NewClient ⟨0⟩) "org" "repo"
              { Page := 2, PerPage := 10 }] })) :=
  have h := paginated_listing_returns_all_pages envTwoPages {} "token" (NewClient ⟨0⟩)
    (by decide)
  ⟨(h.1 "org"
      [([{ Name := some "a" }, { Name := some "b" }], ⟨200, 2⟩), ([{ Name := some "c" }], ⟨200, 0⟩)]
      2 ⟨rfl, by decide, rfl, rfl⟩ (by decide)).1,
   (h.2 "org" "repo"
      [([{ ID := some 1 }, { ID := some 2 }], ⟨200, 2⟩), ([{ ID := some 3 }], ⟨200, 0⟩)]
      2 ⟨rfl, by decide, rfl, rfl⟩ (by decide)).1⟩

/-- The repository loop on a provider that serves the pages `good` and then
fails: it returns the error and no items, after one request per good page and
one for the failing page. -/
theorem getRepositoriesLoop_fails (env : Env) (org : String) (c : Client) (e : LibError) :
    ∀ (good : List (List Repository × Response)) (fuel : Nat)
      (opt : RepositoryListByOrgOptions) (acc : List Repository) (w : World),
      w.clientV3 = some c → repoPagesThenError env c org e w.calls opt good →
      good.length + 1 ≤ fuel →
      getRepositoriesLoop env org fuel opt acc w =
        (.returned ([], some (Error.lib e)),
          w.recordAll (repoRequests c org opt (good.map (fun p => p.2.NextPage)))) := by
  intro good
  induction good with
  | nil =>
    intro fuel opt acc w hc hs hfuel
    cases fuel with
    | zero => simp at hfuel
    | succ fuel =>
      simp only [repoPagesThenError] at hs
      simp only [getRepositoriesLoop, hc, hs, List.map, repoRequests, record_eq_recordAll]
  | cons p rest ih =>
    intro fuel opt acc w hc hs hfuel
    cases fuel with
    | zero => simp at hfuel
    | succ fuel =>
      obtain ⟨hp, hnext, hrest⟩ := hs
      have hlen : rest.length + 1 ≤ fuel := by simpa using hfuel
      have h := ih fuel
        { opt with ListOptions := { opt.ListOptions with Page := p.2.NextPage } }
        (acc ++ p.1) (w.record (Call.RepositoriesListByOrg c org opt))
        (by simpa using hc) (by simpa using hrest) hlen
      simp only [getRepositoriesLoop, hc, hp, hnext, if_false, h]
      simp [record_eq_recordAll, recordAll_recordAll, repoRequests]

/-- The workflow loop on a provider that serves the pages `good` and then
fails: it returns the error and no items, after one request per good page and
one for the failing page. -/
theorem getAllWorkflowsLoop_fails (env : Env) (owner repo : String) (c : Client)
    (e : LibError) :
    ∀ (good : List (List Workflow × Response)) (fuel : Nat)
      (opt : ListOptions) (acc : List Workflow) (w : World),
      w.clientV3 = some c → workflowPagesThenError env c owner repo e w.calls opt good →
      good.length + 1 ≤ fuel →
      getAllWorkflowsLoop env owner repo fuel opt acc w =
        (.returned ([], some (Error.lib e)),
          w.recordAll (workflowRequests c owner repo opt (good.map (fun p => p.2.NextPage)))) := by
  intro good
  induction good with
  | nil =>
    intro fuel opt acc w hc hs hfuel
    cases fuel with
    | zero => simp at hfuel
    | succ fuel =>
      simp only [workflowPagesThenError] at hs
      simp only [getAllWorkflowsLoop, hc, hs, List.map, workflowRequests, record_eq_recordAll]
  | cons p rest ih =>
    intro fuel opt acc w hc hs hfuel
    cases fuel with
    | zero => simp at hfuel
    | succ fuel =>
      obtain ⟨hp, hnext, hrest⟩ := hs
      have hlen : rest.length + 1 ≤ fuel := by simpa using hfuel
      have h := ih fuel { opt with Page := p.2.NextPage }
        (p.1.foldl (fun all workflow => all ++ [workflow]) acc)
        (w.record (Call.ActionsListWorkflows c owner repo opt))
        (by simpa using hc) (by simpa using hrest) hlen
      simp only [getAllWorkflowsLoop, hc, hp, hnext, if_false, h]
      simp [record_eq_recordAll, recordAll_recordAll, workflowRequests]

/-- The active-workflow loop on a provider that serves the pages `good` and
then fails: it returns the error and no items, after one request per good page
and one for the failing page. -/
theorem getAllActiveWorkflowsLoop_fails (env : Env) (owner repo : String) (c : Client)
    (e : LibError) :
    ∀ (good : List (List Workflow × Response)) (fuel : Nat)
      (opt : ListOptions) (acc : List Workflow) (w : World),
      w.clientV3 = some c → workflowPagesThenError env c owner repo e w.calls opt good →
      good.length + 1 ≤ fuel →
      getAllActiveWorkflowsLoop env owner repo fuel opt acc w =
        (.returned ([], some (Error.lib e)),
          w.recordAll (workflowRequests c owner repo opt (good.map (fun p => p.2.NextPage)))) := by
  intro good
  induction good with
  | nil =>
    intro fuel opt acc w hc hs hfuel
    cases fuel with
    | zero => simp at hfuel
    | succ fuel =>
      simp only [workflowPagesThenError] at hs
      simp only [getAllActiveWorkflowsLoop, hc, hs, List.map, workflowRequests,
        record_eq_recordAll]
  | cons p rest ih =>
    intro fuel opt acc w hc hs hfuel
    cases fuel with
    | zero => simp at hfuel
    | succ fuel =>
      obtain ⟨hp, hnext, hrest⟩ := hs
      have hlen : rest.length + 1 ≤ fuel := by simpa using hfuel
      have h := ih fuel { opt with Page := p.2.NextPage } (acc ++ p.1)
        (w.record (Call.ActionsListWorkflows c owner repo opt))
        (by simpa using hc) (by simpa using hrest) hlen
      simp only [getAllActiveWorkflowsLoop, hc, hp, hnext, if_false, h]
      simp [record_eq_recordAll, recordAll_recordAll, workflowRequests]

/-- C5: once `checkClients` has left a REST client `c` in place, if the
provider serves the K-1 pages `good` (each with a non-zero `NextPage`) and
fails the request for page K with the error `e`, and the fuel covers K
iterations, then `GetRepositories`, `GetAllWorkflowsForRepository` and
`GetAllActiveWorkflowsForRepository` return the nil list together with `e`,
and the calls they add are exactly K page requests, the last of them the
failing one. -/
theorem paginated_listing_page_error (env : Env) (w : World) (token : String) (c : Client)
    (e : LibError) (hc : (checkClients env token w).2.clientV3 = some c) :
    (∀ (org : String) (good : List (List Repository × Response)) (fuel : Nat),
      repoPagesThenError env c org e (checkClients env token w).2.calls
        { RepoType := "all", ListOptions := { PerPage := 10 } } good →
      good.length + 1 ≤ fuel →
      GetRepositories env fuel org token w =
        (.returned ([], some (Error.lib e)),
          (checkClients env token w).2.recordAll
            (repoRequests c org { RepoType := "all", ListOptions := { PerPage := 10 } }
              (good.map (fun p => p.2.NextPage)))) ∧
      (repoRequests c org { RepoType := "all", ListOptions := { PerPage := 10 } }
        (good.map (fun p => p.2.NextPage))).length = good.length + 1) ∧
    (∀ (organization repository : String) (good : List (List Workflow × Response))
      (fuel : Nat),
      workflowPagesThenError env c organization repository e
        (checkClients env token w).2.calls { PerPage := 10 } good →
      good.length + 1 ≤ fuel →
      GetAllWorkflowsForRepository env fuel organization repository token w =
        (.returned ([], some (Error.lib e)),
          (checkClients env token w).2.recordAll
            (workflowRequests c organization repository { PerPage := 10 }
              (good.map (fun p => p.2.NextPage)))) ∧
      GetAllActiveWorkflowsForRepository env fuel organization repository token w =
        (.returned ([], some (Error.lib e)),
          (checkClients env token w).2.recordAll
            (workflowRequests c organization repository { PerPage := 10 }
              (good.map (fun p => p.2.NextPage)))) ∧
      (workflowRequests c organization repository { PerPage := 10 }
        (good.map (fun p => p.2.NextPage))).length = good.length + 1) := by
  constructor
  · intro org good fuel hs hfuel
    refine ⟨?_, ?_⟩
    · have h := getRepositoriesLoop_fails env org c e good fuel _ [] _ hc hs hfuel
      simpa [GetRepositories] using h
    · rw [repoRequests_length, List.length_map]
  · intro organization repository good fuel hs hfuel
    refine ⟨?_, ?_, ?_⟩
    · have h := getAllWorkflowsLoop_fails env organization repository c e good fuel _ [] _
        hc hs hfuel
      simpa [GetAllWorkflowsForRepository] using h
    · have h := getAllActiveWorkflowsLoop_fails env organization repository c e good fuel _ []
        _ hc hs hfuel
      simpa [GetAllActiveWorkflowsForRepository] using h
    · rw [workflowRequests_length, List.length_map]

/-- C5 (witness): page 2 of the provider fails with HTTP 502 after a first page
of two items; with fuel 2 each lister returns the nil list and that error, and
has made the two page requests and no other. -/
theorem paginated_listing_page_error_witness :
    (GetRepositories envSecondPageFails 2 "org" "token" {} =
      (.returned ([], some (Error.lib (.ErrorResponse 502 "Bad Gateway"))),
        { clientV3 := some (NewClient ⟨0⟩), clientV4 := some (NewClientV4 ⟨0⟩),
          accessToken := "token",
          calls := [Call.NewRateLimitWaiterClient "token",
            Call.RepositoriesListByOrg (NewClient ⟨0⟩) "org"
              { RepoType := "all", ListOptions := { Page := 0, PerPage := 10 } },
            Call.RepositoriesListByOrg (NewClient ⟨0⟩) "org"
              { RepoType := "all", ListOptions := { Page := 2, PerPage := 10 } }] })) ∧
    (GetAllWorkflowsForRepository envSecondPageFails 2 "org" "repo" "token" {} =
      (.returned ([], some (Error.lib (.ErrorResponse 502 "Bad Gateway"))),
        { clientV3 := some (NewClient ⟨0⟩), clientV4 := some (NewClientV4 ⟨0⟩),
          accessToken := "token",
          calls := [Call.NewRateLimitWaiterClient "token",
            Call.ActionsListWorkflows (NewClient ⟨0⟩) "org" "repo" { Page := 0, PerPage := 10 },
            Call.ActionsListWorkflows (NewClient ⟨0⟩) "org" "repo"
              { Page := 2, PerPage := 10 }] })) ∧
    (GetAllActiveWorkflowsForRepository envSecondPageFails 2 "org" "repo" "token" {}).1 =
      .returned ([], some (Error.lib (.ErrorResponse 502 "Bad Gateway"))) :=
  have h := paginated_listing_page_error envSecondPageFails {} "token" (NewClient ⟨0⟩)
    (.ErrorResponse 502 "Bad Gateway") (by decide)
  have hw := h.2 "org" "repo"
    [([{ ID := some 1, State := some "active" }, { ID := some 2, State := some "active" }],
      ⟨200, 2⟩)] 2 ⟨rfl, by decide, rfl⟩ (by decide)
  ⟨(h.1 "org" [([{ Name := some "a" }, { Name := some "b" }], ⟨200, 2⟩)] 2
      ⟨rfl, by decide, rfl⟩ (by decide)).1,
   hw.1, congrArg Prod.fst hw.2.1⟩

/-! ### Settings mutators -/

/-- C6: for every repository with a name `name` and a visibility `visibility`,
and every triple of status strings, once `checkClients` has left a REST client
`c` in place `ChangeGhasRepoSettings` sends exactly one request, an edit of
that repository whose only field is the security-and-analysis payload; the
payload has no advanced-security field exactly when `visibility` is "public",
carries the advanced-security status `ghas` otherwise (so for "private" and
"internal"), and always carries `secretScanning` and `pushProtection` in the
secret-scanning and push-protection fields. -/
theorem ChangeGhasRepoSettings_payload (env : Env) (w : World) (token : String) (c : Client)
    (organization : String) (repository : Repository) (name visibility : String)
    (ghas secretScanning pushProtection : String)
    (hc : (checkClients env token w).2.clientV3 = some c)
    (hname : repository.Name = some name) (hvis : repository.Visibility = some visibility) :
    (ChangeGhasRepoSettings env organization repository ghas secretScanning pushProtection
        token w).2.calls =
      (checkClients env token w).2.calls ++
        [Call.RepositoriesEdit c organization name
          { SecurityAndAnalysis :=
              some (ghasPayload visibility ghas secretScanning pushProtection) }] ∧
    ((ghasPayload visibility ghas secretScanning pushProtection).AdvancedSecurity = none ↔
      visibility = "public") ∧
    (visibility ≠ "public" →
      (ghasPayload visibility ghas secretScanning pushProtection).AdvancedSecurity =
        some { Status := some ghas }) ∧
    (ghasPayload "private" ghas secretScanning pushProtection).AdvancedSecurity =
      some { Status := some ghas } ∧
    (ghasPayload "internal" ghas secretScanning pushProtection).AdvancedSecurity =
      some { Status := some ghas } ∧
    (ghasPayload visibility ghas secretScanning pushProtection).SecretScanning =
      some { Status := some secretScanning } ∧
    (ghasPayload visibility ghas secretScanning pushProtection).SecretScanningPushProtection =
      some { Status := some pushProtection } := by
  refine ⟨?_, ?_, ?_, ?_, ?_, ?_, ?_⟩
  · simp only [ChangeGhasRepoSettings, hvis, hc, hname]
    split
    · split
      · rfl
      · split <;> rfl
    · rfl
  · by_cases h : visibility = "public" <;> simp [ghasPayload, h]
  · intro h
    simp [ghasPayload, h]
  · simp [ghasPayload]
  · simp [ghasPayload]
  · by_cases h : visibility = "public" <;> simp [ghasPayload, h]
  · by_cases h : visibility = "public" <;> simp [ghasPayload, h]

/-- C6 (witness): a public repository in a fresh process; the request sent
carries secret scanning and push protection only. -/
theorem ChangeGhasRepoSettings_payload_witness :
    (ChangeGhasRepoSettings {} "org" { Name := some "widgets", Visibility := some "public" }
        "disabled" "enabled" "enabled" "token" {}).2.calls =
      [Call.NewRateLimitWaiterClient "token",
        Call.RepositoriesEdit (NewClient ⟨0⟩) "org" "widgets"
          { SecurityAndAnalysis := some
              { AdvancedSecurity := none,
                SecretScanning := some { Status := some "enabled" },
                SecretScanningPushProtection := some { Status := some "enabled" } } }] :=
  (ChangeGhasRepoSettings_payload {} {} "token" (NewClient ⟨0⟩) "org"
    { Name := some "widgets", Visibility := some "public" } "widgets" "public"
    "disabled" "enabled" "enabled" (by decide) rfl rfl).1

/-- C7: once `checkClients` has left a REST client `c` in place, when the
provider answers the call with a provider error of status `status`, then
`ChangeGhasRepoSettings` (for a repository with a name and a visibility),
`ChangeRepositoryVisibility` and `CreateRepository` return nil if `status` is
422 and that provider error otherwise, and `ChangeArchiveRepository`,
`ArchiveRepository` and `UnarchiveRepository` return nil if `status` is 403 and
that provider error otherwise. -/
theorem settings_mutation_already_applied (env : Env) (w : World) (token : String)
    (c : Client) (status : Int) (msg : String)
    (hc : (checkClients env token w).2.clientV3 = some c) :
    (∀ organization (repository : Repository) name visibility ghas secretScanning
        pushProtection nextPage,
      repository.Name = some name → repository.Visibility = some visibility →
      env.RepositoriesEdit (checkClients env token w).2.calls c organization name
        { SecurityAndAnalysis :=
            some (ghasPayload visibility ghas secretScanning pushProtection) } =
        (some ⟨status, nextPage⟩, some (.ErrorResponse status msg)) →
      (ChangeGhasRepoSettings env organization repository ghas secretScanning pushProtection
        token w).1 =
        .returned (if status = 422 then none
          else some (Error.lib (.ErrorResponse status msg)))) ∧
    (∀ organization repository visibility,
      (env.RepositoriesEdit (checkClients env token w).2.calls c organization repository
        { Visibility := some visibility }).2 = some (.ErrorResponse status msg) →
      (ChangeRepositoryVisibility env organization repository visibility token w).1 =
        .returned (if status = 422 then none
          else some (Error.lib (.ErrorResponse status msg)))) ∧
    (∀ organization repository,
      (env.RepositoriesCreate (checkClients env token w).2.calls c organization
        { Name := some repository }).2 = some (.ErrorResponse status msg) →
      (CreateRepository env organization repository token w).1 =
        .returned (if status = 422 then none
          else some (Error.lib (.ErrorResponse status msg)))) ∧
    (∀ organization repository archive,
      (env.RepositoriesEdit (checkClients env token w).2.calls c organization repository
        { Archived := some archive }).2 = some (.ErrorResponse status msg) →
      (ChangeArchiveRepository env organization repository archive token
        (checkClients env token w).2).1 =
        .returned (if status = 403 then none
          else some (Error.lib (.ErrorResponse status msg)))) ∧
    (∀ organization repository,
      (env.RepositoriesEdit (checkClients env token w).2.calls c organization repository
        { Archived := some true }).2 = some (.ErrorResponse status msg) →
      (ArchiveRepository env organization repository token w).1 =
        .returned (if status = 403 then none
          else some (Error.lib (.ErrorResponse status msg)))) ∧
    (∀ organization repository,
      (env.RepositoriesEdit (checkClients env token w).2.calls c organization repository
        { Archived := some false }).2 = some (.ErrorResponse status msg) →
      (UnarchiveRepository env organization repository token w).1 =
        .returned (if status = 403 then none
          else some (Error.lib (.ErrorResponse status msg)))) := by
  refine ⟨?_, ?_, ?_, ?_, ?_, ?_⟩
  · intro organization repository name visibility ghas secretScanning pushProtection nextPage
      hname hvis h
    simp only [ChangeGhasRepoSettings, hvis, hc, hname, h]
    split <;> rfl
  · intro organization repository visibility h
    simp only [ChangeRepositoryVisibility, hc, h]
    split <;> rfl
  · intro organization repository h
    simp only [CreateRepository, hc, h]
    split <;> rfl
  · intro organization repository archive h
    simp only [ChangeArchiveRepository, hc, h]
    split <;> rfl
  · intro organization repository h
    simp only [ArchiveRepository, ChangeArchiveRepository, hc, h]
    split <;> rfl
  · intro organization repository h
    simp only [UnarchiveRepository, ChangeArchiveRepository, hc, h]
    split <;> rfl

/-- C7 (witness): against a provider that answers a repeated change with
422 (403 for archiving), the second application of the same GHAS, visibility,
creation and archive change returns nil; against a provider that answers 500,
the visibility change returns that error. -/
theorem settings_mutation_already_applied_witness :
    (ChangeGhasRepoSettings envAlreadyApplied "acme"
        { Name := some "widgets", Visibility := some "private" }
        "enabled" "enabled" "enabled" "token"
        (ChangeGhasRepoSettings envAlreadyApplied "acme"
          { Name := some "widgets", Visibility := some "private" }
          "enabled" "enabled" "enabled" "token" {}).2).1 = .returned none ∧
    (ChangeRepositoryVisibility envAlreadyApplied "acme" "widgets" "private" "token"
        (ChangeRepositoryVisibility envAlreadyApplied "acme" "widgets" "private" "token"
          {}).2).1 = .returned none ∧
    (CreateRepository envAlreadyApplied "acme" "widgets" "token"
        (CreateRepository envAlreadyApplied "acme" "widgets" "token" {}).2).1 =
      .returned none ∧
    (ArchiveRepository envAlreadyApplied "acme" "widgets" "token"
        (ArchiveRepository envAlreadyApplied "acme" "widgets" "token" {}).2).1 =
      .returned none ∧
    (ChangeRepositoryVisibility (envStatus 500) "acme" "widgets" "private" "token" {}).1 =
      .returned (some (Error.lib (.ErrorResponse 500 ""))) :=
  ⟨(settings_mutation_already_applied envAlreadyApplied
      (ChangeGhasRepoSettings envAlreadyApplied "acme"
        { Name := some "widgets", Visibility := some "private" }
        "enabled" "enabled" "enabled" "token" {}).2
      "token" (NewClient ⟨0⟩) 422 "Unprocessable Entity" (by decide)).1
      "acme" { Name := some "widgets", Visibility := some "private" } "widgets" "private"
      "enabled" "enabled" "enabled" 0 rfl rfl (by decide),
   (settings_mutation_already_applied envAlreadyApplied
      (ChangeRepositoryVisibility envAlreadyApplied "acme" "widgets" "private" "token" {}).2
      "token" (NewClient ⟨0⟩) 422 "Unprocessable Entity" (by decide)).2.1
      "acme" "widgets" "private" (by decide),
   (settings_mutation_already_applied envAlreadyApplied
      (CreateRepository envAlreadyApplied "acme" "widgets" "token" {}).2
      "token" (NewClient ⟨0⟩) 422 "Unprocessable Entity" (by decide)).2.2.1
      "acme" "widgets" (by decide),
   (settings_mutation_already_applied envAlreadyApplied
      (ArchiveRepository envAlreadyApplied "acme" "widgets" "token" {}).2
      "token" (NewClient ⟨0⟩) 403 "Forbidden" (by decide)).2.2.2.2.1
      "acme" "widgets" (by decide),
   (settings_mutation_already_applied (envStatus 500) {} "token" (NewClient ⟨0⟩) 500 ""
      (by decide)).2.1 "acme" "widgets" "private" (by decide)⟩

/-! ### Entity accessors -/

/-- C8: once `checkClients` has left a REST client `c` in place, for every
answer of the provider: a provider error with status 404 makes `GetRepository`
return the nil entity with `ErrRepositoryNotFound` and `GetIssue` the nil
entity with `ErrIssueNotFound`; any other error makes them return the nil
entity with the provider's own error, which differs from the not-found value;
a nil error makes them return the provider's entity with a nil error. -/
theorem entity_accessor_outcomes (env : Env) (w : World) (token : String) (c : Client)
    (hc : (checkClients env token w).2.clientV3 = some c) :
    (∀ repoName org,
      (∀ msg, (env.RepositoriesGet (checkClients env token w).2.calls c org repoName).2.2 =
          some (.ErrorResponse 404 msg) →
        (GetRepository env repoName org token w).1 =
          .returned (none, some Error.ErrRepositoryNotFound)) ∧
      (∀ e, (env.RepositoriesGet (checkClients env token w).2.calls c org repoName).2.2 =
          some e → (∀ msg, e ≠ .ErrorResponse 404 msg) →
        (GetRepository env repoName org token w).1 = .returned (none, some (Error.lib e)) ∧
        Error.lib e ≠ Error.ErrRepositoryNotFound) ∧
      ((env.RepositoriesGet (checkClients env token w).2.calls c org repoName).2.2 = none →
        (GetRepository env repoName org token w).1 =
          .returned ((env.RepositoriesGet (checkClients env token w).2.calls c org
            repoName).1, none))) ∧
    (∀ organization repository issueNumber,
      (∀ msg, (env.IssuesGet (checkClients env token w).2.calls c organization repository
          issueNumber).2.2 = some (.ErrorResponse 404 msg) →
        (GetIssue env organization repository issueNumber token w).1 =
          .returned (none, some Error.ErrIssueNotFound)) ∧
      (∀ e, (env.IssuesGet (checkClients env token w).2.calls c organization repository
          issueNumber).2.2 = some e → (∀ msg, e ≠ .ErrorResponse 404 msg) →
        (GetIssue env organization repository issueNumber token w).1 =
          .returned (none, some (Error.lib e)) ∧
        Error.lib e ≠ Error.ErrIssueNotFound) ∧
      ((env.IssuesGet (checkClients env token w).2.calls c organization repository
          issueNumber).2.2 = none →
        (GetIssue env organization repository issueNumber token w).1 =
          .returned ((env.IssuesGet (checkClients env token w).2.calls c organization
            repository issueNumber).1, none))) := by
  constructor
  · intro repoName org
    refine ⟨?_, ?_, ?_⟩
    · intro msg h
      simp only [GetRepository, hc, h, if_true]
    · intro e h hne
      refine ⟨?_, by simp⟩
      cases e with
      | ErrorResponse status m =>
        have hs : status ≠ 404 := fun hst => hne m (by rw [hst])
        simp only [GetRepository, hc, h, hs, if_false]
      | Other m => simp only [GetRepository, hc, h]
    · intro h
      simp only [GetRepository, hc, h]
  · intro organization repository issueNumber
    refine ⟨?_, ?_, ?_⟩
    · intro msg h
      simp only [GetIssue, hc, h, if_true]
    · intro e h hne
      refine ⟨?_, by simp⟩
      cases e with
      | ErrorResponse status m =>
        have hs : status ≠ 404 := fun hst => hne m (by rw [hst])
        simp only [GetIssue, hc, h, hs, if_false]
      | Other m => simp only [GetIssue, hc, h]
    · intro h
      simp only [GetIssue, hc, h]

/-- C8 (witness): in a fresh process, HTTP 404 gives the not-found values,
HTTP 500 gives the provider's error, and a provider that knows the entity gives
the entity with a nil error. -/
theorem entity_accessor_outcomes_witness :
    (GetRepository (envStatus 404) "widgets" "acme" "token" {}).1 =
      .returned (none, some Error.ErrRepositoryNotFound) ∧
    (GetIssue (envStatus 404) "acme" "widgets" 7 "token" {}).1 =
      .returned (none, some Error.ErrIssueNotFound) ∧
    (GetRepository (envStatus 500) "widgets" "acme" "token" {}).1 =
      .returned (none, some (Error.lib (.ErrorResponse 500 ""))) ∧
    (GetIssue (envStatus 500) "acme" "widgets" 7 "token" {}).1 =
      .returned (none, some (Error.lib (.ErrorResponse 500 ""))) ∧
    (GetRepository envFound "widgets" "acme" "token" {}).1 =
      .returned (some { Name := some "widgets", Visibility := some "private" }, none) ∧
    (GetIssue envFound "acme" "widgets" 7 "token" {}).1 =
      .returned (some { Number := some 7, Title := some "title" }, none) :=
  have h404 := entity_accessor_outcomes (envStatus 404) {} "token" (NewClient ⟨0⟩) (by decide)
  have h500 := entity_accessor_outcomes (envStatus 500) {} "token" (NewClient ⟨0⟩) (by decide)
  have hok := entity_accessor_outcomes envFound {} "token" (NewClient ⟨0⟩) (by decide)
  ⟨(h404.1 "widgets" "acme").1 "" rfl,
   (h404.2 "acme" "widgets" 7).1 "" rfl,
   ((h500.1 "widgets" "acme").2.1 (.ErrorResponse 500 "") rfl (by simp)).1,
   ((h500.2 "acme" "widgets" 7).2.1 (.ErrorResponse 500 "") rfl (by simp)).1,
   (hok.1 "widgets" "acme").2.2 rfl,
   (hok.2 "acme" "widgets" 7).2.2 rfl⟩

/-! ### Client cache -/

/-- The rebuilding branch of `checkClients` when construction succeeds. -/
theorem checkClients_rebuild_ok (env : Env) (token : String) (w : World) (rl : HttpClient)
    (hcond : (w.clientV3.isNone || w.clientV4.isNone || token != w.accessToken) = true)
    (hnew : env.NewRateLimitWaiterClient w.calls token = .ok rl) :
    checkClients env token w =
      (none, { clientV3 := some (NewClient rl), clientV4 := some (NewClientV4 rl),
               accessToken := token,
               calls := w.calls ++ [Call.NewRateLimitWaiterClient token] }) := by
  simp only [checkClients, hcond, if_true, hnew, World.record]

/-- The rebuilding branch of `checkClients` when construction fails. -/
theorem checkClients_rebuild_error (env : Env) (token : String) (w : World) (e : LibError)
    (hcond : (w.clientV3.isNone || w.clientV4.isNone || token != w.accessToken) = true)
    (hnew : env.NewRateLimitWaiterClient w.calls token = .error e) :
    checkClients env token w =
      (some (Error.lib e),
        { w with accessToken := token,
                 calls := w.calls ++ [Call.NewRateLimitWaiterClient token] }) := by
  simp only [checkClients, hcond, if_true, hnew, World.record]

/-- The cached branch of `checkClients`. -/
theorem checkClients_cached (env : Env) (token : String) (w : World)
    (hcond : (w.clientV3.isNone || w.clientV4.isNone || token != w.accessToken) = false) :
    checkClients env token w = (none, w) := by
  simp [checkClients, hcond]

/-- After any call of `checkClients`, `accessToken` is the token of that call. -/
theorem checkClients_accessToken (env : Env) (token : String) (w : World) :
    (checkClients env token w).2.accessToken = token := by
  cases hcond : (w.clientV3.isNone || w.clientV4.isNone || token != w.accessToken) with
  | true =>
    cases hnew : env.NewRateLimitWaiterClient w.calls token with
    | ok rl => rw [checkClients_rebuild_ok env token w rl hcond hnew]
    | error e => rw [checkClients_rebuild_error env token w e hcond hnew]
  | false =>
    rw [checkClients_cached env token w hcond]
    simp only [Bool.or_eq_false_iff, bne_eq_false_iff_eq] at hcond
    exact hcond.2.symm

/-- After a call of `checkClients` that returned nil, both clients are present. -/
theorem checkClients_ok_clients (env : Env) (token : String) (w : World)
    (h : (checkClients env token w).1 = none) :
    (checkClients env token w).2.clientV3.isNone = false ∧
    (checkClients env token w).2.clientV4.isNone = false := by
  cases hcond : (w.clientV3.isNone || w.clientV4.isNone || token != w.accessToken) with
  | true =>
    cases hnew : env.NewRateLimitWaiterClient w.calls token with
    | ok rl =>
      rw [checkClients_rebuild_ok env token w rl hcond hnew]
      exact ⟨rfl, rfl⟩
    | error e =>
      rw [checkClients_rebuild_error env token w e hcond hnew] at h
      simp at h
  | false =>
    rw [checkClients_cached env token w hcond]
    simp only [Bool.or_eq_false_iff] at hcond
    exact ⟨hcond.1.1, hcond.1.2⟩

/-- C9: for tokens `A ≠ B` and any starting state, the call with `B` that
follows a call with `A` takes the rebuilding path: it invokes the transport
construction for `B` (the one call it adds), and when that construction yields
`rl` it returns nil with both `clientV3` and `clientV4` replaced by clients
built on `rl` and `accessToken = B`.  And when a call with token `A` has
returned nil, a second call with `A` returns nil and leaves the whole state
unchanged: same clients, same token, no construction call. -/
theorem checkClients_cache (env : Env) (w : World) (A B : String) :
    (A ≠ B →
      (checkClients env B (checkClients env A w).2).2.calls =
        (checkClients env A w).2.calls ++ [Call.NewRateLimitWaiterClient B] ∧
      (∀ rl, env.NewRateLimitWaiterClient (checkClients env A w).2.calls B = .ok rl →
        checkClients env B (checkClients env A w).2 =
          (none, { clientV3 := some (NewClient rl), clientV4 := some (NewClientV4 rl),
                   accessToken := B,
                   calls := (checkClients env A w).2.calls ++
                     [Call.NewRateLimitWaiterClient B] }))) ∧
    ((checkClients env A w).1 = none →
      checkClients env A (checkClients env A w).2 = (none, (checkClients env A w).2)) := by
  constructor
  · intro hAB
    have hcond : ((checkClients env A w).2.clientV3.isNone ||
        (checkClients env A w).2.clientV4.isNone ||
        B != (checkClients env A w).2.accessToken) = true := by
      rw [checkClients_accessToken]
      simp [bne_iff_ne, Ne.symm hAB]
    constructor
    · cases hnew : env.NewRateLimitWaiterClient (checkClients env A w).2.calls B with
      | ok rl => rw [checkClients_rebuild_ok env B _ rl hcond hnew]
      | error e => rw [checkClients_rebuild_error env B _ e hcond hnew]
    · intro rl hnew
      exact checkClients_rebuild_ok env B _ rl hcond hnew
  · intro hok
    obtain ⟨h3, h4⟩ := checkClients_ok_clients env A w hok
    apply checkClients_cached
    rw [checkClients_accessToken, h3, h4]
    simp

/-- C9 (witness): in a fresh process, where the transport built for a token
is identified by the token's length, a call with "tokenA" and then one with
"tokenBB" ends with both clients built on the second transport; and a second
call with "tokenA" changes nothing. -/
theorem checkClients_cache_witness :
    checkClients envClientPerToken "tokenBB" (checkClients envClientPerToken "tokenA" {}).2 =
      (none, { clientV3 := some (NewClient ⟨7⟩), clientV4 := some (NewClientV4 ⟨7⟩),
               accessToken := "tokenBB",
               calls := [Call.NewRateLimitWaiterClient "tokenA",
                         Call.NewRateLimitWaiterClient "tokenBB"] }) ∧
    checkClients envClientPerToken "tokenA" (checkClients envClientPerToken "tokenA" {}).2 =
      (none, { clientV3 := some (NewClient ⟨6⟩), clientV4 := some (NewClientV4 ⟨6⟩),
               accessToken := "tokenA",
               calls := [Call.NewRateLimitWaiterClient "tokenA"] }) :=
  ⟨((checkClients_cache envClientPerToken {} "tokenA" "tokenBB").1 (by decide)).2 ⟨7⟩ rfl,
   (checkClients_cache envClientPerToken {} "tokenA" "tokenA").2 rfl⟩

/-- C10 (counterexample): in a fresh process where transport construction
fails, `checkClients` returns the construction error, but `GetRepository`,
`ChangeGHASOrgSettings` and `GetRepositories` do not return it: they end in a
panic on the nil `clientV3`, after the construction call and no other. -/
theorem checkClients_error_is_dropped :
    (checkClients envInitFails "token" {}).1 =
      some (Error.lib (.Other "transport construction failed")) ∧
    GetRepository envInitFails "repo" "org" "token" {} =
      (.panicked, { accessToken := "token",
                    calls := [Call.NewRateLimitWaiterClient "token"] }) ∧
    ChangeGHASOrgSettings envInitFails "org" true "token" {} =
      (.panicked, { accessToken := "token",
                    calls := [Call.NewRateLimitWaiterClient "token"] }) ∧
    GetRepositories envInitFails 5 "org" "token" {} =
      (.panicked, { accessToken := "token",
                    calls := [Call.NewRateLimitWaiterClient "token"] }) := by
  decide

/-- C10 (amended): on first use, that is with neither client built yet, if
transport construction fails with `e` then `checkClients` returns `e` having
recorded the construction call and nothing else, and every façade operation
that depends on it ends in a panic in the state `checkClients` left: none of
them attempts its provider call, and none returns the error.  (The two
workflow toggles are stated for a non-empty list, the listers and
`DeleteBranchProtections` for at least one unit of fuel.) -/
theorem client_init_failure_on_first_use (env : Env) (w : World) (token : String)
    (e : LibError) (h3 : w.clientV3 = none) (h4 : w.clientV4 = none)
    (hnew : env.NewRateLimitWaiterClient w.calls token = .error e) :
    checkClients env token w =
      (some (Error.lib e),
        { w with accessToken := token,
                 calls := w.calls ++ [Call.NewRateLimitWaiterClient token] }) ∧
    (∀ repoName org,
      GetRepository env repoName org token w = (.panicked, (checkClients env token w).2)) ∧
    (∀ organization activate,
      ChangeGHASOrgSettings env organization activate token w =
        (.panicked, (checkClients env token w).2)) ∧
    (∀ fuel org,
      GetRepositories env (fuel + 1) org token w = (.panicked, (checkClients env token w).2)) ∧
    (∀ organization repository ghas secretScanning pushProtection,
      ChangeGhasRepoSettings env organization repository ghas secretScanning pushProtection
        token w = (.panicked, (checkClients env token w).2)) ∧
    (∀ organization repository visibility,
      ChangeRepositoryVisibility env organization repository visibility token w =
        (.panicked, (checkClients env token w).2)) ∧
    (∀ organization repository,
      ArchiveRepository env organization repository token w =
        (.panicked, (checkClients env token w).2)) ∧
    (∀ organization repository,
      UnarchiveRepository env organization repository token w =
        (.panicked, (checkClients env token w).2)) ∧
    (∀ organization repository,
      CreateRepository env organization repository token w =
        (.panicked, (checkClients env token w).2)) ∧
    (∀ organization repository issueNumber,
      GetIssue env organization repository issueNumber token w =
        (.panicked, (checkClients env token w).2)) ∧
    (∀ organization repository defaultBranch,
      GetCodeScanningAnalysis env organization repository defaultBranch token w =
        (.panicked, (checkClients env token w).2)) ∧
    (∀ fuel organization repository,
      GetAllWorkflowsForRepository env (fuel + 1) organization repository token w =
        (.panicked, (checkClients env token w).2)) ∧
    (∀ fuel organization repository,
      GetAllActiveWorkflowsForRepository env (fuel + 1) organization repository token w =
        (.panicked, (checkClients env token w).2)) ∧
    (∀ organization repository workflow rest,
      DisableWorkflowsForRepository env organization repository (workflow :: rest) token w =
        (.panicked, (checkClients env token w).2)) ∧
    (∀ organization repository workflow rest,
      EnableWorkflowsForRepository env organization repository (workflow :: rest) token w =
        (.panicked, (checkClients env token w).2)) ∧
    (∀ fuel organization repository,
      DeleteBranchProtections env (fuel + 1) organization repository token w =
        (.panicked, (checkClients env token w).2)) := by
  have hcond : (w.clientV3.isNone || w.clientV4.isNone || token != w.accessToken) = true := by
    simp [h3]
  have hck := checkClients_rebuild_error env token w e hcond hnew
  have hc3 : (checkClients env token w).2.clientV3 = none := by rw [hck]; exact h3
  have hc4 : (checkClients env token w).2.clientV4 = none := by rw [hck]; exact h4
  refine ⟨hck, ?_, ?_, ?_, ?_, ?_, ?_, ?_, ?_, ?_, ?_, ?_, ?_, ?_, ?_, ?_⟩
  · intro repoName org
    simp only [GetRepository, hc3]
  · intro organization activate
    simp only [ChangeGHASOrgSettings, hc3]
  · intro fuel org
    simp only [GetRepositories, getRepositoriesLoop, hc3]
  · intro organization repository ghas secretScanning pushProtection
    simp only [ChangeGhasRepoSettings, hc3]
    split <;> rfl
  · intro organization repository visibility
    simp only [ChangeRepositoryVisibility, hc3]
  · intro organization repository
    simp only [ArchiveRepository, ChangeArchiveRepository, hc3]
  · intro organization repository
    simp only [UnarchiveRepository, ChangeArchiveRepository, hc3]
  · intro organization repository
    simp only [CreateRepository, hc3]
  · intro organization repository issueNumber
    simp only [GetIssue, hc3]
  · intro organization repository defaultBranch
    simp only [GetCodeScanningAnalysis, hc3]
  · intro fuel organization repository
    simp only [GetAllWorkflowsForRepository, getAllWorkflowsLoop, hc3]
  · intro fuel organization repository
    simp only [GetAllActiveWorkflowsForRepository, getAllActiveWorkflowsLoop, hc3]
  · intro organization repository workflow rest
    simp only [DisableWorkflowsForRepository, disableLoop, hc3]
  · intro organization repository workflow rest
    simp only [EnableWorkflowsForRepository, enableLoop, hc3]
  · intro fuel organization repository
    simp only [DeleteBranchProtections, deleteBranchProtectionsLoop, hc4]

/-- C10 (witness): a fresh process in which transport construction fails;
`checkClients` returns the error, and `GetRepository`, `ChangeGHASOrgSettings`,
`GetRepositories` and `DeleteBranchProtections` panic in the state it left. -/
theorem client_init_failure_on_first_use_witness :
    checkClients envInitFails "token" {} =
      (some (Error.lib (.Other "transport construction failed")),
        { accessToken := "token", calls := [Call.NewRateLimitWaiterClient "token"] }) ∧
    GetRepository envInitFails "repo" "org" "token" {} =
      (.panicked, (checkClients envInitFails "token" {}).2) ∧
    ChangeGHASOrgSettings envInitFails "org" true "token" {} =
      (.panicked, (checkClients envInitFails "token" {}).2) ∧
    GetRepositories envInitFails 1 "org" "token" {} =
      (.panicked, (checkClients envInitFails "token" {}).2) ∧
    DeleteBranchProtections envInitFails 1 "org" "repo" "token" {} =
      (.panicked, (checkClients envInitFails "token" {}).2) :=
  have h := client_init_failure_on_first_use envInitFails {} "token"
    (.Other "transport construction failed") rfl rfl rfl
  ⟨h.1, h.2.1 "repo" "org", h.2.2.1 "org" true, h.2.2.2.1 0 "org",
   h.2.2.2.2.2.2.2.2.2.2.2.2.2.2.2 0 "org" "repo"⟩

/-! ### Branch protections -/

@[simp] theorem record_clientV4 (w : World) (call : Call) :
    (w.record call).clientV4 = w.clientV4 := rfl

@[simp] theorem recordAll_clientV4 (w : World) (cs : List Call) :
    (w.recordAll cs).clientV4 = w.clientV4 := rfl

theorem recordAll_nil (w : World) : w.recordAll [] = w := by
  simp [World.recordAll]

/-- The deletion loop when every mutation is accepted: it returns nil after one
mutation per rule id, in order. -/
theorem deleteLoop_all_accepted (env : Env) (c : ClientV4) :
    ∀ (ids : List String) (w : World), w.clientV4 = some c →
      mutationsSucceed env c w.calls ids →
      deleteLoop env ids w = (.returned none, w.recordAll (ids.map (Call.V4Mutate c))) := by
  intro ids
  induction ids with
  | nil => intro w _ _; simp [deleteLoop, recordAll_nil]
  | cons id rest ih =>
    intro w hc hs
    obtain ⟨hid, hrest⟩ := hs
    have h := ih (w.record (Call.V4Mutate c id)) (by simpa using hc) (by simpa using hrest)
    simp only [deleteLoop, hc, hid, h]
    simp [record_eq_recordAll, recordAll_recordAll]

/-- The deletion loop when the mutations for `pre` are accepted and the one for
`rk` fails: it returns `ErrBranchProtectionDeletion` after the mutations for
`pre` and `rk`, and issues none for `post`. -/
theorem deleteLoop_first_failure (env : Env) (c : ClientV4) (rk : String) (post : List String)
    (e : LibError) :
    ∀ (pre : List String) (w : World), w.clientV4 = some c →
      mutationsSucceed env c w.calls pre →
      env.V4Mutate (w.calls ++ pre.map (Call.V4Mutate c)) c rk = some e →
      deleteLoop env (pre ++ rk :: post) w =
        (.returned (some Error.ErrBranchProtectionDeletion),
          w.recordAll ((pre ++ [rk]).map (Call.V4Mutate c))) := by
  intro pre
  induction pre with
  | nil =>
    intro w hc _ hfail
    simp only [List.map, List.append_nil] at hfail
    simp only [List.nil_append, deleteLoop, hc, hfail, List.map, record_eq_recordAll]
  | cons id rest ih =>
    intro w hc hs hfail
    obtain ⟨hid, hrest⟩ := hs
    have h := ih (w.record (Call.V4Mutate c id)) (by simpa using hc) (by simpa using hrest)
      (by simpa using hfail)
    rw [List.cons_append]
    simp only [deleteLoop, hc, hid]
    refine h.trans ?_
    simp [record_eq_recordAll, recordAll_recordAll]

/-- Collecting the ids of a page one at a time appends the page's ids. -/
theorem foldl_append_ids (nodes : List BranchProtectionRuleNode) (results : List String) :
    nodes.foldl (fun results protection => results ++ [protection.Id]) results =
      results ++ nodes.map (fun protection => protection.Id) := by
  induction nodes generalizing results with
  | nil => simp
  | cons a l ih => simp [ih]

theorem ruleQueries_length (c : ClientV4) (owner name : String) :
    ∀ (nexts : List String) (cursor : Option String),
      (ruleQueries c owner name cursor nexts).length = nexts.length + 1 := by
  intro nexts
  induction nexts with
  | nil => intro cursor; rfl
  | cons next rest ih => intro cursor; simp [ruleQueries, ih]

theorem ruleQueries_no_mutation (c : ClientV4) (owner name : String) :
    ∀ (nexts : List String) (cursor : Option String),
      ∀ call ∈ ruleQueries c owner name cursor nexts, call.isMutation = false := by
  intro nexts
  induction nexts with
  | nil =>
    intro cursor call hmem
    simp only [ruleQueries, List.mem_singleton] at hmem
    subst hmem
    rfl
  | cons next rest ih =>
    intro cursor call hmem
    simp only [ruleQueries, List.mem_cons] at hmem
    rcases hmem with h | h
    · subst h
      rfl
    · exact ih _ call h

/-- The listing loop on a provider that serves `pages`: after one query per
page it enters the deletion loop with the ids collected so far followed by the
ids of all pages. -/
theorem deleteBranchProtectionsLoop_serves (env : Env) (owner name : String) (c : ClientV4) :
    ∀ (pages : List BranchProtectionRule) (fuel : Nat) (cursor : Option String)
      (results : List String) (w : World),
      w.clientV4 = some c → servesRulePages env c owner name w.calls cursor pages →
      pages.length ≤ fuel →
      deleteBranchProtectionsLoop env owner name fuel cursor results w =
        deleteLoop env (results ++ ruleIds pages)
          (w.recordAll (ruleQueries c owner name cursor
            ((pages.map (fun p => p.PageInfo.EndCursor)).dropLast))) := by
  intro pages
  induction pages with
  | nil => intro fuel cursor results w _ hs _; exact absurd hs (by simp [servesRulePages])
  | cons p rest ih =>
    intro fuel cursor results w hc hs hfuel
    cases fuel with
    | zero => simp at hfuel
    | succ fuel =>
      cases rest with
      | nil =>
        obtain ⟨hp, hlast⟩ := hs
        simp only [deleteBranchProtectionsLoop, hc, hp, hlast, Bool.not_false, if_true,
          foldl_append_ids]
        simp [ruleIds, ruleQueries, record_eq_recordAll]
      | cons q rest =>
        obtain ⟨hp, hnext, hrest⟩ := hs
        have hlen : (q :: rest).length ≤ fuel := by simpa using hfuel
        have h := ih fuel (some p.PageInfo.EndCursor)
          (results ++ p.Nodes.map (fun protection => protection.Id))
          (w.record (Call.V4Query c owner name cursor))
          (by simpa using hc) (by simpa using hrest) hlen
        simp only [deleteBranchProtectionsLoop, hc, hp, hnext, Bool.not_true,
          foldl_append_ids]
        refine h.trans ?_
        simp [ruleIds, ruleQueries, record_eq_recordAll, recordAll_recordAll]

/-- The listing loop on a provider that serves the pages `good` and then fails
a query: it returns that error after one query per good page and the failing
one, and never reaches the deletion loop. -/
theorem deleteBranchProtectionsLoop_fails (env : Env) (owner name : String) (c : ClientV4)
    (e : LibError) :
    ∀ (good : List BranchProtectionRule) (fuel : Nat) (cursor : Option String)
      (results : List String) (w : World),
      w.clientV4 = some c → rulePagesThenError env c owner name e w.calls cursor good →
      good.length + 1 ≤ fuel →
      deleteBranchProtectionsLoop env owner name fuel cursor results w =
        (.returned (some (Error.lib e)),
          w.recordAll (ruleQueries c owner name cursor
            (good.map (fun p => p.PageInfo.EndCursor)))) := by
  intro good
  induction good with
  | nil =>
    intro fuel cursor results w hc hs hfuel
    cases fuel with
    | zero => simp at hfuel
    | succ fuel =>
      simp only [rulePagesThenError] at hs
      simp only [deleteBranchProtectionsLoop, hc, hs, List.map, ruleQueries,
        record_eq_recordAll]
  | cons p rest ih =>
    intro fuel cursor results w hc hs hfuel
    cases fuel with
    | zero => simp at hfuel
    | succ fuel =>
      obtain ⟨hp, hnext, hrest⟩ := hs
      have hlen : rest.length + 1 ≤ fuel := by simpa using hfuel
      have h := ih fuel (some p.PageInfo.EndCursor)
        (results ++ p.Nodes.map (fun protection => protection.Id))
        (w.record (Call.V4Query c owner name cursor))
        (by simpa using hc) (by simpa using hrest) hlen
      simp only [deleteBranchProtectionsLoop, hc, hp, hnext, Bool.not_true,
        foldl_append_ids]
      refine h.trans ?_
      simp [ruleQueries, record_eq_recordAll, recordAll_recordAll]

/-- C11: once `checkClients` has left a query client `c` in place.
If the provider serves the listing `pages` (fuel covering one iteration per
page), the rule ids are those of the pages in provider order and, after one
query per page: when every delete mutation is accepted, the operation issues
exactly one mutation per id, in that order, and returns nil; when the ids are
`pre ++ rk :: post`, the mutations for `pre` are accepted and the one for `rk`
fails, it returns `ErrBranchProtectionDeletion` having issued the mutations
for `pre` and `rk` (k of them, k the position of `rk`), none for `post` and
nothing else.  If instead a listing query fails with `e` after the pages
`good`, it returns `e`, and the calls it has made are listing queries only,
no mutation. -/
theorem DeleteBranchProtections_outcomes (env : Env) (w : World) (token : String)
    (c : ClientV4) (organization repository : String)
    (hc : (checkClients env token w).2.clientV4 = some c) :
    (∀ (pages : List BranchProtectionRule) (fuel : Nat),
      servesRulePages env c organization repository (checkClients env token w).2.calls none
        pages →
      pages.length ≤ fuel →
      (mutationsSucceed env c
          ((checkClients env token w).2.calls ++ ruleQueries c organization repository none
            ((pages.map (fun p => p.PageInfo.EndCursor)).dropLast)) (ruleIds pages) →
        DeleteBranchProtections env fuel organization repository token w =
          (.returned none,
            (checkClients env token w).2.recordAll
              (ruleQueries c organization repository none
                  ((pages.map (fun p => p.PageInfo.EndCursor)).dropLast) ++
                (ruleIds pages).map (Call.V4Mutate c))) ∧
        ((ruleIds pages).map (Call.V4Mutate c)).length = (ruleIds pages).length) ∧
      (∀ (pre : List String) (rk : String) (post : List String) (e : LibError),
        ruleIds pages = pre ++ rk :: post →
        mutationsSucceed env c
          ((checkClients env token w).2.calls ++ ruleQueries c organization repository none
            ((pages.map (fun p => p.PageInfo.EndCursor)).dropLast)) pre →
        env.V4Mutate
          ((checkClients env token w).2.calls ++ ruleQueries c organization repository none
            ((pages.map (fun p => p.PageInfo.EndCursor)).dropLast) ++
            pre.map (Call.V4Mutate c)) c rk = some e →
        DeleteBranchProtections env fuel organization repository token w =
          (.returned (some Error.ErrBranchProtectionDeletion),
            (checkClients env token w).2.recordAll
              (ruleQueries c organization repository none
                  ((pages.map (fun p => p.PageInfo.EndCursor)).dropLast) ++
                (pre ++ [rk]).map (Call.V4Mutate c))) ∧
        ((pre ++ [rk]).map (Call.V4Mutate c)).length = pre.length + 1)) ∧
    (∀ (good : List BranchProtectionRule) (fuel : Nat) (e : LibError),
      rulePagesThenError env c organization repository e (checkClients env token w).2.calls
        none good →
      good.length + 1 ≤ fuel →
      DeleteBranchProtections env fuel organization repository token w =
        (.returned (some (Error.lib e)),
          (checkClients env token w).2.recordAll
            (ruleQueries c organization repository none
              (good.map (fun p => p.PageInfo.EndCursor)))) ∧
      ∀ call ∈ ruleQueries c organization repository none
          (good.map (fun p => p.PageInfo.EndCursor)), call.isMutation = false) := by
  constructor
  · intro pages fuel hs hfuel
    have hloop := deleteBranchProtectionsLoop_serves env organization repository c pages fuel
      none [] _ hc hs hfuel
    simp only [List.nil_append] at hloop
    constructor
    · intro hmut
      refine ⟨?_, by simp⟩
      have hdel := deleteLoop_all_accepted env c (ruleIds pages)
        ((checkClients env token w).2.recordAll (ruleQueries c organization repository none
          ((pages.map (fun p => p.PageInfo.EndCursor)).dropLast)))
        (by simpa using hc) (by simpa using hmut)
      simp only [DeleteBranchProtections]
      rw [hloop, hdel, recordAll_recordAll]
    · intro pre rk post e hids hmut hfail
      refine ⟨?_, by simp⟩
      have hdel := deleteLoop_first_failure env c rk post e pre
        ((checkClients env token w).2.recordAll (ruleQueries c organization repository none
          ((pages.map (fun p => p.PageInfo.EndCursor)).dropLast)))
        (by simpa using hc) (by simpa using hmut) (by simpa using hfail)
      simp only [DeleteBranchProtections]
      rw [hloop, hids, hdel, recordAll_recordAll]
  · intro good fuel e hs hfuel
    refine ⟨?_, ruleQueries_no_mutation c organization repository _ none⟩
    simp only [DeleteBranchProtections]
    exact deleteBranchProtectionsLoop_fails env organization repository c e good fuel none []
      _ hc hs hfuel

/-- C11 (witness): rules "r1", "r2" on a first page and "r3" on a second, in a
fresh process with fuel 2.  When every mutation is accepted the three rules
are deleted in order and nil is returned; when the mutation for "r2" fails the
operation returns `ErrBranchProtectionDeletion` after the mutations for "r1"
and "r2", with none for "r3"; when the second listing query fails that error
is returned after the two queries, with no mutation. -/
theorem DeleteBranchProtections_outcomes_witness :
    DeleteBranchProtections (envRules none false) 2 "org" "repo" "token" {} =
      (.returned none,
        { clientV3 := some (NewClient ⟨0⟩), clientV4 := some (NewClientV4 ⟨0⟩),
          accessToken := "token",
          calls := [Call.NewRateLimitWaiterClient "token",
            Call.V4Query (NewClientV4 ⟨0⟩) "org" "repo" none,
            Call.V4Query (NewClientV4 ⟨0⟩) "org" "repo" (some "c1"),
            Call.V4Mutate (NewClientV4 ⟨0⟩) "r1",
            Call.V4Mutate (NewClientV4 ⟨0⟩) "r2",
            Call.V4Mutate (NewClientV4 ⟨0⟩) "r3"] }) ∧
    DeleteBranchProtections (envRules (some "r2") false) 2 "org" "repo" "token" {} =
      (.returned (some Error.ErrBranchProtectionDeletion),
        { clientV3 := some (NewClient ⟨0⟩), clientV4 := some (NewClientV4 ⟨0⟩),
          accessToken := "token",
          calls := [Call.NewRateLimitWaiterClient "token",
            Call.V4Query (NewClientV4 ⟨0⟩) "org" "repo" none,
            Call.V4Query (NewClientV4 ⟨0⟩) "org" "repo" (some "c1"),
            Call.V4Mutate (NewClientV4 ⟨0⟩) "r1",
            Call.V4Mutate (NewClientV4 ⟨0⟩) "r2"] }) ∧
    DeleteBranchProtections (envRules none true) 2 "org" "repo" "token" {} =
      (.returned (some (Error.lib (.Other "query failed"))),
        { clientV3 := some (NewClient ⟨0⟩), clientV4 := some (NewClientV4 ⟨0⟩),
          accessToken := "token",
          calls := [Call.NewRateLimitWaiterClient "token",
            Call.V4Query (NewClientV4 ⟨0⟩) "org" "repo" none,
            Call.V4Query (NewClientV4 ⟨0⟩) "org" "repo" (some "c1")] }) :=
  ⟨(((DeleteBranchProtections_outcomes (envRules none false) {} "token" (NewClientV4 ⟨0⟩)
        "org" "repo" (by decide)).1
      [⟨[⟨"r1"⟩, ⟨"r2"⟩], ⟨"c1", true⟩⟩, ⟨[⟨"r3"⟩], ⟨"c2", false⟩⟩] 2
      ⟨rfl, rfl, rfl, rfl⟩ (by decide)).1 ⟨rfl, rfl, rfl, trivial⟩).1,
   (((DeleteBranchProtections_outcomes (envRules (some "r2") false) {} "token"
        (NewClientV4 ⟨0⟩) "org" "repo" (by decide)).1
      [⟨[⟨"r1"⟩, ⟨"r2"⟩], ⟨"c1", true⟩⟩, ⟨[⟨"r3"⟩], ⟨"c2", false⟩⟩] 2
      ⟨rfl, rfl, rfl, rfl⟩ (by decide)).2 ["r1"] "r2" ["r3"] (.Other "mutation failed") rfl
      ⟨rfl, trivial⟩ rfl).1,
   ((DeleteBranchProtections_outcomes (envRules none true) {} "token" (NewClientV4 ⟨0⟩)
        "org" "repo" (by decide)).2
      [⟨[⟨"r1"⟩, ⟨"r2"⟩], ⟨"c1", true⟩⟩] 2 (.Other "query failed")
      ⟨rfl, rfl, rfl⟩ (by decide)).1⟩

/-- A call of `checkClients` that returns nil keeps the cached pair with the
cached token: either it changed nothing, or it stored the token together with
two clients built on the transport it had just constructed for that token. -/
theorem checkClients_preserves_built_from (env : Env) (token : String) (w : World)
    (hw : ClientsBuiltFromAccessToken env w) (hok : (checkClients env token w).1 = none) :
    ClientsBuiltFromAccessToken env (checkClients env token w).2 := by
  cases hcond : (w.clientV3.isNone || w.clientV4.isNone || token != w.accessToken) with
  | true =>
    cases hnew : env.NewRateLimitWaiterClient w.calls token with
    | ok rl =>
      rw [checkClients_rebuild_ok env token w rl hcond hnew]
      intro c3 c4 h3 h4
      refine ⟨w.calls, [], rl, rfl, hnew, ?_, ?_⟩
      · exact (Option.some.inj h3).symm
      · exact (Option.some.inj h4).symm
    | error e =>
      rw [checkClients_rebuild_error env token w e hcond hnew] at hok
      simp at hok
  | false =>
    rw [checkClients_cached env token w hcond]
    exact hw

/-- C12 (counterexample): a successful call with token "A", a rebuild for token
"BB" whose transport construction fails, and a further call with "BB".  The
last call returns nil and leaves both clients present, built on the transport
for "A", with `accessToken = "BB"`: the cached pair was not built from the
cached token. -/
theorem checkClients_keeps_clients_of_other_token :
    checkClientsAll (envRebuildFailsOnce "BB") ["A", "BB", "BB"] {} =
      ([none, some (Error.lib (.Other "transport construction failed")), none],
        { clientV3 := some (NewClient ⟨1⟩), clientV4 := some (NewClientV4 ⟨1⟩),
          accessToken := "BB",
          calls := [Call.NewRateLimitWaiterClient "A",
                    Call.NewRateLimitWaiterClient "BB"] }) ∧
    (envRebuildFailsOnce "BB").NewRateLimitWaiterClient [] "A" = .ok ⟨1⟩ ∧
    ¬ ClientsBuiltFromAccessToken (envRebuildFailsOnce "BB")
        (checkClientsAll (envRebuildFailsOnce "BB") ["A", "BB", "BB"] {}).2 := by
  have hrun : checkClientsAll (envRebuildFailsOnce "BB") ["A", "BB", "BB"] {} =
      ([none, some (Error.lib (.Other "transport construction failed")), none],
        { clientV3 := some (NewClient ⟨1⟩), clientV4 := some (NewClientV4 ⟨1⟩),
          accessToken := "BB",
          calls := [Call.NewRateLimitWaiterClient "A",
                    Call.NewRateLimitWaiterClient "BB"] }) := by decide
  refine ⟨hrun, rfl, ?_⟩
  rw [hrun]
  intro h
  obtain ⟨hist, later, rl, hcalls, hnew, -, -⟩ := h (NewClient ⟨1⟩) (NewClientV4 ⟨1⟩) rfl rfl
  have hfail : (envRebuildFailsOnce "BB").NewRateLimitWaiterClient
      [Call.NewRateLimitWaiterClient "A"] "BB" =
      .error (.Other "transport construction failed") := rfl
  match hist, hcalls, hnew with
  | [], hcalls, _ => simp at hcalls
  | [x], hcalls, hnew =>
    simp only [List.cons_append, List.nil_append, List.cons.injEq] at hcalls
    obtain ⟨hx, -⟩ := hcalls
    subst hx
    simp only at hnew
    rw [hfail] at hnew
    cases hnew
  | x :: y :: t, hcalls, _ => simp at hcalls

/-- C12 (amended): in every sequence of `checkClients` calls that starts from a
state in which the cached pair belongs to the cached token (the state of a
fresh process is one) and in which every call returns nil, so that every
transport construction attempted succeeds, the final state again has the
cached pair belonging to the cached token: when both clients are present they
were built on the transport constructed for `accessToken`. -/
theorem checkClients_built_from_accessToken (env : Env) :
    ∀ (tokens : List String) (w : World), ClientsBuiltFromAccessToken env w →
      (∀ r ∈ (checkClientsAll env tokens w).1, r = none) →
      ClientsBuiltFromAccessToken env (checkClientsAll env tokens w).2 := by
  intro tokens
  induction tokens with
  | nil => intro w hw _; exact hw
  | cons token rest ih =>
    intro w hw hall
    simp only [checkClientsAll, List.mem_cons, forall_eq_or_imp] at hall
    exact ih _ (checkClients_preserves_built_from env token w hw hall.1) hall.2

/-- C12 (witness): in a fresh process, calls with "A", "BB", "BB" and "A" whose
constructions all succeed end with the pair built for "A" and the token "A". -/
theorem checkClients_built_from_accessToken_witness :
    (checkClientsAll envClientPerToken ["A", "BB", "BB", "A"] {}).2 =
      { clientV3 := some (NewClient ⟨1⟩), clientV4 := some (NewClientV4 ⟨1⟩),
        accessToken := "A",
        calls := [Call.NewRateLimitWaiterClient "A", Call.NewRateLimitWaiterClient "BB",
                  Call.NewRateLimitWaiterClient "A"] } ∧
    ClientsBuiltFromAccessToken envClientPerToken
      (checkClientsAll envClientPerToken ["A", "BB", "BB", "A"] {}).2 :=
  ⟨by decide,
   checkClients_built_from_accessToken envClientPerToken ["A", "BB", "BB", "A"] {}
    (fun _ _ h => nomatch h) (by decide)⟩

end Github
